import Mathlib

/-!
# Verification of the x402 Miden agent SDK payment core

A shallow embedding, in Lean 4, of the payment-offer negotiation and retry
protocol implemented in `src/payment-handler.ts`, `src/fetch.ts` and
`src/wallet.ts` of the `x402-miden-agent-sdk` repository, together with
theorems settling the specification claims about it.

Modelling conventions:
* TypeScript strings are Lean `String`s (sequences of Unicode scalar values;
  JavaScript lone surrogates are not representable and are noted where they
  matter).
* `bigint` values are Lean `Int`s; `BigInt(string)` conversion — which can
  throw a `SyntaxError` — is modelled by `strToBigInt : String → Option Int`.
* JSON values are modelled by the `Json` inductive below, with JSON numbers
  restricted to integers (every number appearing in this protocol's wire
  format — `x402Version`, `maxTimeoutSeconds` — is an integer; JavaScript
  numbers are IEEE doubles, which print and reparse losslessly, and every
  claim below concerns integer-valued or absent numbers, where the two
  models agree).
* Fallible TypeScript code (thrown exceptions) is modelled with
  `Option`/`Except`; effectful code (HTTP requests, wallet invocations,
  callbacks) is modelled by explicit call traces returned alongside results.
-/

namespace X402

/-! ## JSON values

The wire format of the protocol is JSON.  `JSON.parse` / `JSON.stringify`
are modelled over this AST.  Objects are ordered association lists, matching
JavaScript's insertion-ordered object keys. -/

inductive Json where
  | null : Json
  | bool (b : Bool) : Json
  | num (n : Int) : Json
  | str (s : String) : Json
  | arr (elems : List Json) : Json
  | obj (members : List (String × Json)) : Json

/-! ## JavaScript `BigInt(string)` (ECMA-262 StringToBigInt)

`BigInt(s)` trims JavaScript whitespace, accepts the empty remainder as `0`,
a `0x`/`0o`/`0b`-prefixed unsigned integer literal, or an optionally signed
decimal literal; anything else throws a `SyntaxError`.  We model the throwing
conversion as an `Option Int` (`none` = `SyntaxError`). -/

/-- JavaScript WhiteSpace and LineTerminator code points (ECMA-262). -/
def jsWhitespace (c : Char) : Bool :=
  c.val = 0x9 ∨ c.val = 0xA ∨ c.val = 0xB ∨ c.val = 0xC ∨ c.val = 0xD ∨
  c.val = 0x20 ∨ c.val = 0xA0 ∨ c.val = 0x1680 ∨
  (0x2000 ≤ c.val ∧ c.val ≤ 0x200A) ∨
  c.val = 0x2028 ∨ c.val = 0x2029 ∨ c.val = 0x202F ∨ c.val = 0x205F ∨
  c.val = 0x3000 ∨ c.val = 0xFEFF

/-- Strip leading and trailing JavaScript whitespace. -/
def trimJs (cs : List Char) : List Char :=
  ((cs.dropWhile jsWhitespace).reverse.dropWhile jsWhitespace).reverse

/-- Value of a digit character in the given base, if it is one. -/
def digitVal (base : Nat) (c : Char) : Option Nat :=
  let v : Option Nat :=
    if '0' ≤ c ∧ c ≤ '9' then some (c.toNat - '0'.toNat)
    else if 'a' ≤ c ∧ c ≤ 'f' then some (c.toNat - 'a'.toNat + 10)
    else if 'A' ≤ c ∧ c ≤ 'F' then some (c.toNat - 'A'.toNat + 10)
    else none
  match v with
  | some n => if n < base then some n else none
  | none => none

/-- Parse a non-empty run of digits in the given base covering the whole
list; `none` if the list is empty or has a non-digit. -/
def parseDigits (base : Nat) : List Char → Option Nat
  | [] => none
  | cs => cs.foldl (fun acc c =>
      match acc, digitVal base c with
      | some a, some d => some (a * base + d)
      | _, _ => none) (some 0)

/-- ECMA-262 StringToBigInt: the semantics of `BigInt(s)` on a string,
with `none` standing for the thrown `SyntaxError`. -/
def strToBigInt (s : String) : Option Int :=
  match trimJs s.data with
  | [] => some 0
  | '0' :: 'x' :: rest => (parseDigits 16 rest).map Int.ofNat
  | '0' :: 'X' :: rest => (parseDigits 16 rest).map Int.ofNat
  | '0' :: 'o' :: rest => (parseDigits 8 rest).map Int.ofNat
  | '0' :: 'O' :: rest => (parseDigits 8 rest).map Int.ofNat
  | '0' :: 'b' :: rest => (parseDigits 2 rest).map Int.ofNat
  | '0' :: 'B' :: rest => (parseDigits 2 rest).map Int.ofNat
  | '-' :: rest => (parseDigits 10 rest).map (fun n => -(n : Int))
  | '+' :: rest => (parseDigits 10 rest).map Int.ofNat
  | cs => (parseDigits 10 cs).map Int.ofNat

/-! ## Data model (`src/types.ts`)

`MidenPaymentRequirements` is one payment offer.  The zod schema in
`payment-handler.ts` makes `maxTimeoutSeconds` and `extra` optional, so they
are `Option`-valued here (the static TS interface notwithstanding, runtime
values produced by parsing may lack them). -/

structure MidenPaymentRequirements where
  scheme : String
  network : String
  amount : String
  payTo : String
  maxTimeoutSeconds : Option Int
  asset : String
  extra : Option Json

structure ResourceInfo where
  url : String
  method : String
  headers : Option (List (String × String))
deriving DecidableEq

structure PaymentRequired where
  x402Version : Int
  accepts : List MidenPaymentRequirements
  resource : Option ResourceInfo
  error : Option String

/-- The Miden-specific payload inside a V2 payment (`from` is a Lean keyword,
hence `fromAcct`). -/
structure MidenExactPayload where
  fromAcct : String
  provenTransaction : String
  transactionId : String
deriving DecidableEq

structure V2PaymentPayload where
  x402Version : Int
  accepted : MidenPaymentRequirements
  resource : Option ResourceInfo
  payload : MidenExactPayload

structure PaymentResult where
  transactionId : String
  paymentHeader : String
  requirements : MidenPaymentRequirements

/-- `PaymentHandlerOptions` from `payment-handler.ts`: optional fields are
`Option`-valued; JavaScript truthiness of `maxPayment` / `?.length` is
reflected in the activity tests below. -/
structure PaymentHandlerOptions where
  maxPayment : Option Int
  allowedFaucets : Option (List String)
  allowedNetworks : Option (List String)
deriving DecidableEq

/-- `this.options.maxPayment && this.options.maxPayment > 0n`. -/
def maxPaymentActive (o : PaymentHandlerOptions) : Option Int :=
  match o.maxPayment with
  | some m => if m ≠ 0 ∧ m > 0 then some m else none
  | none => none

/-- `this.options.allowedNetworks?.length` truthiness. -/
def activeList : Option (List String) → Option (List String)
  | some l => if l.length ≠ 0 then some l else none
  | none => none

/-! ## Requirement selector (`selectRequirement`, payment-handler.ts:123-159)

The loop body of `selectRequirement` is factored into `offerCheck`: the
per-offer filter.  `Except.error ()` models the uncaught `SyntaxError`
thrown by `BigInt(req.amount)` on a non-numeric amount when the max-payment
filter is active. -/

/-- The max-payment filter (payment-handler.ts:147-151): when active, the
amount is converted with `BigInt` — `Except.error ()` is the uncaught
`SyntaxError` on a non-numeric string. -/
def offerCheckAmount (o : PaymentHandlerOptions)
    (req : MidenPaymentRequirements) : Except Unit Bool :=
  match maxPaymentActive o with
  | some m =>
    match strToBigInt req.amount with
    | none => .error ()
    | some a => if a > m then .ok false else .ok true
  | none => .ok true

/-- The faucet-allowlist filter (payment-handler.ts:140-145), falling
through to the max-payment filter. -/
def offerCheckFaucet (o : PaymentHandlerOptions)
    (req : MidenPaymentRequirements) : Except Unit Bool :=
  match activeList o.allowedFaucets with
  | some fs =>
    if req.asset ∉ fs then .ok false
    else offerCheckAmount o req
  | none => offerCheckAmount o req

/-- The whole loop body of `selectRequirement`: scheme check, then network
allowlist (payment-handler.ts:132-137), then faucet allowlist, then max
payment. -/
def offerCheck (o : PaymentHandlerOptions) (req : MidenPaymentRequirements) :
    Except Unit Bool :=
  if req.scheme ≠ "exact" then .ok false
  else match activeList o.allowedNetworks with
  | some nets =>
    if req.network ∉ nets then .ok false
    else offerCheckFaucet o req
  | none => offerCheckFaucet o req

/-- An offer survives all filters (no `SyntaxError` raised, all checks pass). -/
def offerPasses (o : PaymentHandlerOptions)
    (req : MidenPaymentRequirements) : Bool :=
  match offerCheck o req with
  | .ok true => true
  | _ => false

/-- `selectRequirement`: first-match scan over the offers; the `Except`
layer propagates the `BigInt` `SyntaxError`. -/
def selectRequirement (o : PaymentHandlerOptions) :
    List MidenPaymentRequirements →
    Except Unit (Option MidenPaymentRequirements)
  | [] => .ok none
  | req :: rest =>
    match offerCheck o req with
    | .error e => .error e
    | .ok true => .ok (some req)
    | .ok false => selectRequirement o rest

deriving instance DecidableEq for Except

/-! ## JSON text: numbers

`JSON.stringify` prints integers in decimal; `JSON.parse` reads an optional
minus sign and a digit run with no leading zero.  (Model restriction:
fractional and exponent number syntax is not supported — every number in
this protocol's wire format is an integer — so a body using them parses to
`none` here where JavaScript would produce a float.) -/

def isDigit10 (c : Char) : Bool := '0' ≤ c ∧ c ≤ '9'

def digitChar (n : Nat) : Char := Char.ofNat (48 + n)

/-- Decimal digits of `n`, most significant first; structurally recursive on
a fuel bound so that the definition evaluates inside the kernel. -/
def natDigitsF : Nat → Nat → List Char
  | 0, _ => []
  | fuel + 1, n =>
    if n < 10 then [digitChar n]
    else natDigitsF fuel (n / 10) ++ [digitChar (n % 10)]

/-- Decimal digits of `n`, most significant first. -/
def natDigits (n : Nat) : List Char := natDigitsF (n + 1) n

/-- Decimal characters of an integer (sign and digits), as printed by
`JSON.stringify`. -/
def intChars (n : Int) : List Char :=
  if n < 0 then '-' :: natDigits n.natAbs else natDigits n.toNat

/-- Numeric value of an all-digit character list (most significant first). -/
def natFromDigits (ds : List Char) : Nat :=
  ds.foldl (fun a c => a * 10 + (c.toNat - 48)) 0

/-- JSON number token parser: a digit run with no leading zero.  (Called
with the sign already consumed.) -/
def parseNatNum (cs : List Char) : Option (Nat × List Char) :=
  let ds := cs.takeWhile isDigit10
  if ds = [] then none
  else if ds.head? = some '0' ∧ ds.length ≠ 1 then none
  else some (natFromDigits ds, cs.dropWhile isDigit10)

/-- JSON number parser (integer part of the grammar; see the section
comment for the model restriction on fraction/exponent syntax). -/
def parseNum (cs : List Char) : Option (Json × List Char) :=
  match cs with
  | '-' :: rest => (parseNatNum rest).map (fun p => (.num (-(p.1 : Int)), p.2))
  | _ => (parseNatNum cs).map (fun p => (.num (p.1 : Int), p.2))

/-! ## JSON text: strings

`JSON.stringify` escapes `"`, `\` and control characters (with the named
short escapes and `\u00xy`, lowercase hex, otherwise) and emits every other
character literally.  `JSON.parse` accepts the full JSON string grammar:
the named escapes, `\uXXXX` (combining surrogate pairs), and literal
characters other than `"`, `\` and raw controls.  Model note: a `\uXXXX`
escape denoting a *lone* surrogate is not a Unicode scalar value and hence
not representable in a Lean `String`; the model parser rejects such input
(`none`) where JavaScript would build an ill-formed string.  No claim
involves lone surrogates. -/

def hexDigitChar (n : Nat) : Char :=
  if n < 10 then Char.ofNat (48 + n) else Char.ofNat (87 + n)

def escapeChar (c : Char) : List Char :=
  if c = '"' then ['\\', '"']
  else if c = '\\' then ['\\', '\\']
  else if c.toNat = 8 then ['\\', 'b']
  else if c.toNat = 9 then ['\\', 't']
  else if c.toNat = 10 then ['\\', 'n']
  else if c.toNat = 12 then ['\\', 'f']
  else if c.toNat = 13 then ['\\', 'r']
  else if c.toNat < 32 then
    ['\\', 'u', '0', '0', hexDigitChar (c.toNat / 16), hexDigitChar (c.toNat % 16)]
  else [c]

def escapeData (cs : List Char) : List Char :=
  cs.foldr (fun c acc => escapeChar c ++ acc) []

/-- `JSON.stringify`'s string quoting. -/
def quoteString (s : String) : List Char := '"' :: (escapeData s.data ++ ['"'])

def hexVal (c : Char) : Option Nat :=
  if 48 ≤ c.toNat ∧ c.toNat ≤ 57 then some (c.toNat - 48)
  else if 97 ≤ c.toNat ∧ c.toNat ≤ 102 then some (c.toNat - 87)
  else if 65 ≤ c.toNat ∧ c.toNat ≤ 70 then some (c.toNat - 55)
  else none

/-- Value of a 4-digit hex escape body. -/
def hex4 (h1 h2 h3 h4 : Char) : Option Nat :=
  match hexVal h1, hexVal h2, hexVal h3, hexVal h4 with
  | some a, some b, some c, some d => some (a * 4096 + b * 256 + c * 16 + d)
  | _, _, _, _ => none

/-- JSON string-body parser, to be entered just after the opening quote;
returns the decoded characters and the remainder after the closing quote.
The first argument is recursion fuel (one unit per decoded character), so
that the definition is structurally recursive and evaluates in the kernel;
`parseStringRest` supplies fuel that is always sufficient. -/
def parseStringCharsF : Nat → List Char → Option (List Char × List Char)
  | 0, _ => none
  | fuel + 1, cs =>
    match cs with
    | [] => none
    | c :: rest =>
      if c = '"' then some ([], rest)
      else if c = '\\' then
        match rest with
        | [] => none
        | e :: rest2 =>
          if e = '"' then (parseStringCharsF fuel rest2).map (fun p => ('"' :: p.1, p.2))
          else if e = '\\' then (parseStringCharsF fuel rest2).map (fun p => ('\\' :: p.1, p.2))
          else if e = '/' then (parseStringCharsF fuel rest2).map (fun p => ('/' :: p.1, p.2))
          else if e = 'b' then (parseStringCharsF fuel rest2).map (fun p => (Char.ofNat 8 :: p.1, p.2))
          else if e = 'f' then (parseStringCharsF fuel rest2).map (fun p => (Char.ofNat 12 :: p.1, p.2))
          else if e = 'n' then (parseStringCharsF fuel rest2).map (fun p => (Char.ofNat 10 :: p.1, p.2))
          else if e = 'r' then (parseStringCharsF fuel rest2).map (fun p => (Char.ofNat 13 :: p.1, p.2))
          else if e = 't' then (parseStringCharsF fuel rest2).map (fun p => (Char.ofNat 9 :: p.1, p.2))
          else if e = 'u' then
            match rest2 with
            | h1 :: h2 :: h3 :: h4 :: rest3 =>
              match hex4 h1 h2 h3 h4 with
              | none => none
              | some v =>
                if 0xD800 ≤ v ∧ v < 0xDC00 then
                  -- High surrogate: must pair with a following low
                  -- surrogate escape (see the section comment).
                  match rest3 with
                  | '\\' :: 'u' :: g1 :: g2 :: g3 :: g4 :: rest4 =>
                    match hex4 g1 g2 g3 g4 with
                    | none => none
                    | some w =>
                      if 0xDC00 ≤ w ∧ w < 0xE000 then
                        (parseStringCharsF fuel rest4).map (fun p =>
                          (Char.ofNat (0x10000 + (v - 0xD800) * 1024
                            + (w - 0xDC00)) :: p.1, p.2))
                      else none
                  | _ => none
                else if 0xDC00 ≤ v ∧ v < 0xE000 then none
                else (parseStringCharsF fuel rest3).map
                    (fun p => (Char.ofNat v :: p.1, p.2))
            | _ => none
          else none
      else if c.toNat < 32 then none
      else (parseStringCharsF fuel rest).map (fun p => (c :: p.1, p.2))

def parseStringRest (cs : List Char) : Option (String × List Char) :=
  (parseStringCharsF (cs.length + 1) cs).map (fun p => (⟨p.1⟩, p.2))

/-! ## JSON text: values

`printJson` models `JSON.stringify` (no spacing; object members in
insertion order).  `parseVal`/`parseElems`/`parseMembers` model
`JSON.parse` by recursive descent, structurally recursive on fuel;
`jsonParse` supplies fuel ample for its input.  Model notes: object
members are kept as an ordered association list (JavaScript keeps one
entry per key, last duplicate winning — no claim involves duplicate
keys), and numbers follow the integer restriction documented above. -/

mutual

def printJson : Json → List Char
  | .null => "null".data
  | .bool true => "true".data
  | .bool false => "false".data
  | .num n => intChars n
  | .str s => quoteString s
  | .arr es => '[' :: (printElems es ++ [']'])
  | .obj kvs => '{' :: (printMembers kvs ++ ['}'])

def printElems : List Json → List Char
  | [] => []
  | [x] => printJson x
  | x :: xs => printJson x ++ ',' :: printElems xs

def printMembers : List (String × Json) → List Char
  | [] => []
  | [(k, v)] => quoteString k ++ ':' :: printJson v
  | (k, v) :: kvs => quoteString k ++ ':' :: printJson v ++ ',' :: printMembers kvs

end

def isJsonWs (c : Char) : Bool := c = ' ' ∨ c = '\t' ∨ c = '\n' ∨ c = '\r'

def skipWs (cs : List Char) : List Char := cs.dropWhile isJsonWs

mutual

def parseVal : Nat → List Char → Option (Json × List Char)
  | 0, _ => none
  | fuel + 1, cs =>
    match skipWs cs with
    | [] => none
    | c :: rest =>
      if c = 'n' then
        match rest with
        | 'u' :: 'l' :: 'l' :: rest2 => some (.null, rest2)
        | _ => none
      else if c = 't' then
        match rest with
        | 'r' :: 'u' :: 'e' :: rest2 => some (.bool true, rest2)
        | _ => none
      else if c = 'f' then
        match rest with
        | 'a' :: 'l' :: 's' :: 'e' :: rest2 => some (.bool false, rest2)
        | _ => none
      else if c = '"' then
        (parseStringRest rest).map (fun p => (.str p.1, p.2))
      else if c = '[' then
        match skipWs rest with
        | ']' :: rest2 => some (.arr [], rest2)
        | _ => (parseElems fuel rest).map (fun p => (.arr p.1, p.2))
      else if c = '{' then
        match skipWs rest with
        | '}' :: rest2 => some (.obj [], rest2)
        | _ => (parseMembers fuel rest).map (fun p => (.obj p.1, p.2))
      else if c = '-' ∨ isDigit10 c then parseNum (c :: rest)
      else none

def parseElems : Nat → List Char → Option (List Json × List Char)
  | 0, _ => none
  | fuel + 1, cs =>
    match parseVal fuel cs with
    | none => none
    | some vr =>
      match skipWs vr.2 with
      | ',' :: rest2 => (parseElems fuel rest2).map (fun p => (vr.1 :: p.1, p.2))
      | ']' :: rest2 => some ([vr.1], rest2)
      | _ => none

def parseMembers : Nat → List Char → Option (List (String × Json) × List Char)
  | 0, _ => none
  | fuel + 1, cs =>
    match skipWs cs with
    | '"' :: rest =>
      match parseStringRest rest with
      | none => none
      | some kr =>
        match skipWs kr.2 with
        | ':' :: rest3 =>
          match parseVal fuel rest3 with
          | none => none
          | some vr =>
            match skipWs vr.2 with
            | ',' :: rest5 =>
              (parseMembers fuel rest5).map (fun p => ((kr.1, vr.1) :: p.1, p.2))
            | '}' :: rest5 => some ([(kr.1, vr.1)], rest5)
            | _ => none
        | _ => none
    | _ => none

end

mutual

/-- Fuel sufficient for `parseVal` to parse the printed form of a value. -/
def jsonFuel : Json → Nat
  | .arr es => 1 + elemsFuel es
  | .obj kvs => 1 + membersFuel kvs
  | _ => 1

def elemsFuel : List Json → Nat
  | [] => 1
  | x :: xs => 1 + max (jsonFuel x) (elemsFuel xs)

def membersFuel : List (String × Json) → Nat
  | [] => 1
  | kv :: kvs => 1 + max (jsonFuel kv.2) (membersFuel kvs)

end

/-- `JSON.stringify` over the AST. -/
def jsonStringify (j : Json) : String := ⟨printJson j⟩

/-- `JSON.parse`: parse a value and require only trailing whitespace,
`none` on failure (the thrown `SyntaxError`). -/
def jsonParse (s : String) : Option Json :=
  match parseVal (2 * s.data.length + 4) s.data with
  | some jr => if skipWs jr.2 = [] then some jr.1 else none
  | none => none

/-! ## UTF-8 (the `utf-8` codec used by `Buffer.from`/`toString`)

Encoding is the standard UTF-8 of Unicode scalar values.  Decoding
validates lead/continuation bytes (including the overlong and surrogate
exclusions) and yields U+FFFD for invalid sequences, as Node's decoder
does; the replacement-path details are irrelevant to every claim, which
only exercise valid encodings. -/

def utf8EncodeChar (c : Char) : List Nat :=
  let n := c.toNat
  if n < 0x80 then [n]
  else if n < 0x800 then [0xC0 + n / 64, 0x80 + n % 64]
  else if n < 0x10000 then
    [0xE0 + n / 4096, 0x80 + n / 64 % 64, 0x80 + n % 64]
  else
    [0xF0 + n / 262144, 0x80 + n / 4096 % 64, 0x80 + n / 64 % 64, 0x80 + n % 64]

def utf8Encode (cs : List Char) : List Nat :=
  cs.foldr (fun c acc => utf8EncodeChar c ++ acc) []

def utf8DecodeF : Nat → List Nat → List Char
  | 0, _ => []
  | fuel + 1, bs =>
    match bs with
    | [] => []
    | b :: rest =>
      if b < 0x80 then Char.ofNat b :: utf8DecodeF fuel rest
      else if 0xC2 ≤ b ∧ b < 0xE0 then
        match rest with
        | b2 :: rest2 =>
          if 0x80 ≤ b2 ∧ b2 < 0xC0 then
            Char.ofNat ((b - 0xC0) * 64 + (b2 - 0x80)) :: utf8DecodeF fuel rest2
          else Char.ofNat 0xFFFD :: utf8DecodeF fuel rest2
        | [] => [Char.ofNat 0xFFFD]
      else if 0xE0 ≤ b ∧ b < 0xF0 then
        match rest with
        | b2 :: b3 :: rest3 =>
          if (0x80 ≤ b2 ∧ b2 < 0xC0) ∧ (0x80 ≤ b3 ∧ b3 < 0xC0) ∧
              (b = 0xE0 → 0xA0 ≤ b2) ∧ (b = 0xED → b2 < 0xA0) then
            Char.ofNat ((b - 0xE0) * 4096 + (b2 - 0x80) * 64 + (b3 - 0x80))
              :: utf8DecodeF fuel rest3
          else Char.ofNat 0xFFFD :: utf8DecodeF fuel rest3
        | _ => [Char.ofNat 0xFFFD]
      else if 0xF0 ≤ b ∧ b < 0xF5 then
        match rest with
        | b2 :: b3 :: b4 :: rest4 =>
          if (0x80 ≤ b2 ∧ b2 < 0xC0) ∧ (0x80 ≤ b3 ∧ b3 < 0xC0) ∧
              (0x80 ≤ b4 ∧ b4 < 0xC0) ∧
              (b = 0xF0 → 0x90 ≤ b2) ∧ (b = 0xF4 → b2 < 0x90) then
            Char.ofNat ((b - 0xF0) * 262144 + (b2 - 0x80) * 4096
                + (b3 - 0x80) * 64 + (b4 - 0x80)) :: utf8DecodeF fuel rest4
          else Char.ofNat 0xFFFD :: utf8DecodeF fuel rest4
        | _ => [Char.ofNat 0xFFFD]
      else Char.ofNat 0xFFFD :: utf8DecodeF fuel rest

def utf8Decode (bs : List Nat) : List Char := utf8DecodeF (bs.length + 1) bs

/-! ## Base64 (`Buffer`'s standard alphabet with `=` padding) -/

def b64Char (n : Nat) : Char :=
  if n < 26 then Char.ofNat (65 + n)
  else if n < 52 then Char.ofNat (97 + (n - 26))
  else if n < 62 then Char.ofNat (48 + (n - 52))
  else if n = 62 then '+' else '/'

def b64Val (c : Char) : Option Nat :=
  if 65 ≤ c.toNat ∧ c.toNat ≤ 90 then some (c.toNat - 65)
  else if 97 ≤ c.toNat ∧ c.toNat ≤ 122 then some (c.toNat - 97 + 26)
  else if 48 ≤ c.toNat ∧ c.toNat ≤ 57 then some (c.toNat - 48 + 52)
  else if c = '+' then some 62
  else if c = '/' then some 63
  else none

def b64EncodeBytes : List Nat → List Char
  | [] => []
  | [b1] => [b64Char (b1 / 4), b64Char (b1 % 4 * 16), '=', '=']
  | [b1, b2] =>
    [b64Char (b1 / 4), b64Char (b1 % 4 * 16 + b2 / 16), b64Char (b2 % 16 * 4), '=']
  | b1 :: b2 :: b3 :: rest =>
    b64Char (b1 / 4) :: b64Char (b1 % 4 * 16 + b2 / 16)
      :: b64Char (b2 % 16 * 4 + b3 / 64) :: b64Char (b3 % 64)
      :: b64EncodeBytes rest

/-- Decoding ignores padding and any non-alphabet characters (Node's
lenient decoder) by keeping only alphabet sextets. -/
def b64Sextets (cs : List Char) : List Nat := cs.filterMap b64Val

def b64DecodeSextets : List Nat → List Nat
  | s1 :: s2 :: s3 :: s4 :: rest =>
    (s1 * 4 + s2 / 16) :: (s2 % 16 * 16 + s3 / 4) :: (s3 % 4 * 64 + s4)
      :: b64DecodeSextets rest
  | [s1, s2, s3] => [s1 * 4 + s2 / 16, s2 % 16 * 16 + s3 / 4]
  | [s1, s2] => [s1 * 4 + s2 / 16]
  | _ => []

def b64DecodeChars (cs : List Char) : List Nat := b64DecodeSextets (b64Sextets cs)

/-- `base64Encode` from payment-handler.ts:272-277
(`Buffer.from(str, "utf-8").toString("base64")`). -/
def base64Encode (s : String) : String := ⟨b64EncodeBytes (utf8Encode s.data)⟩

/-- `base64Decode` from payment-handler.ts:279-284
(`Buffer.from(encoded, "base64").toString("utf-8")`). -/
def base64Decode (s : String) : String := ⟨utf8Decode (b64DecodeChars s.data)⟩

/-! ## The payment-header codec (payment-handler.ts:255-284)

`encodePaymentHeader` is `JSON.stringify` (with a bigint→string replacer
that never fires here: no field of a `V2PaymentPayload` holds a bigint —
amounts are strings in the wire format) followed by the Unicode-safe
base64 encoding.  `decodePaymentHeader` is the inverse; `JSON.parse`'s
thrown `SyntaxError` is modelled as `none`, and the TypeScript
`as V2PaymentPayload` cast performs no runtime conversion, so the decoded
value is exactly the parsed JSON. -/

/-- JSON view of a `ResourceInfo` (object-literal key order `url`,
`method`, `headers?`, the order in which the fields appear). -/
def resourceToJson (r : ResourceInfo) : Json :=
  .obj ([("url", .str r.url), ("method", .str r.method)] ++
    (match r.headers with
     | some hs => [("headers", Json.obj (hs.map (fun kv => (kv.1, Json.str kv.2))))]
     | none => []))

/-- JSON view of a requirement (zod schema key order; absent optional
fields are omitted, as `JSON.stringify` omits `undefined`). -/
def reqToJson (r : MidenPaymentRequirements) : Json :=
  .obj ([("scheme", .str r.scheme), ("network", .str r.network),
         ("amount", .str r.amount), ("payTo", .str r.payTo),
         ("asset", .str r.asset)] ++
    (match r.maxTimeoutSeconds with
     | some t => [("maxTimeoutSeconds", Json.num t)]
     | none => []) ++
    (match r.extra with
     | some e => [("extra", e)]
     | none => []))

def midenPayloadToJson (p : MidenExactPayload) : Json :=
  .obj [("from", .str p.fromAcct),
        ("provenTransaction", .str p.provenTransaction),
        ("transactionId", .str p.transactionId)]

/-- JSON view of the V2 payload: `{x402Version, accepted, payload}` with
`resource` assigned afterwards when present (createPayment:205-213), hence
last in key order. -/
def v2ToJson (p : V2PaymentPayload) : Json :=
  .obj ([("x402Version", .num p.x402Version),
         ("accepted", reqToJson p.accepted),
         ("payload", midenPayloadToJson p.payload)] ++
    (match p.resource with
     | some r => [("resource", resourceToJson r)]
     | none => []))

/-- `encodePaymentHeader` (payment-handler.ts:256-263). -/
def encodePaymentHeader (p : V2PaymentPayload) : String :=
  base64Encode (jsonStringify (v2ToJson p))

/-- `decodePaymentHeader` (payment-handler.ts:266-269): base64-decode and
`JSON.parse`; the unchecked cast returns the parsed JSON value itself. -/
def decodePaymentHeader (s : String) : Option Json :=
  jsonParse (base64Decode s)

/-! ## Characterizing the filters -/

/-- The network allowlist admits `s` (filter inactive, or member). -/
def networkAllowed (o : PaymentHandlerOptions) (s : String) : Prop :=
  match activeList o.allowedNetworks with
  | some l => s ∈ l
  | none => True

/-- The faucet allowlist admits `s` (filter inactive, or member). -/
def faucetAllowed (o : PaymentHandlerOptions) (s : String) : Prop :=
  match activeList o.allowedFaucets with
  | some l => s ∈ l
  | none => True

/-- The max-payment filter admits the amount string: whenever a positive
bound is active, the string parses as an integer not exceeding it. -/
def AmountOk (o : PaymentHandlerOptions) (amount : String) : Prop :=
  ∀ m, maxPaymentActive o = some m →
    ∃ a, strToBigInt amount = some a ∧ a ≤ m

def c1Opts : PaymentHandlerOptions :=
  ⟨some 2000, some ["0xfaucet"], some ["miden:testnet"]⟩

def c1OfferBad : MidenPaymentRequirements :=
  ⟨"streaming", "miden:testnet", "100", "0xr", some 300, "0xfaucet", none⟩

def c1OfferGood : MidenPaymentRequirements :=
  ⟨"exact", "miden:testnet", "1000", "0xr", some 300, "0xfaucet", none⟩

def badAmountOffer : MidenPaymentRequirements :=
  ⟨"exact", "miden:testnet", "not-a-number", "0xrecipient", some 300, "0xfaucet", none⟩

def boundedOpts : PaymentHandlerOptions := ⟨some 10, none, none⟩

/-! ## Claim C3 — never raises on malformed amounts

The spec (§4.2 edge cases) requires an offer with a non-numeric `amount` to
be *rejected* when a `maxPayment` bound is active, "treated as incompatible,
not as a parse crash".  The code violates this: `selectRequirement` calls
`BigInt(req.amount)` (payment-handler.ts:149) with no `try`/`catch`, so the
`SyntaxError` escapes.  With no bound active the amount is indeed never
inspected, as the claim's second half states. -/

def unboundedOpts : PaymentHandlerOptions := ⟨none, none, none⟩

/-- `c'` tightens exactly the `maxPayment` bound: a positive bound where
none was active, or a smaller positive bound. -/
def TightensMaxPayment (c c' : PaymentHandlerOptions) : Prop :=
  c'.allowedFaucets = c.allowedFaucets ∧
  c'.allowedNetworks = c.allowedNetworks ∧
  ∃ m', maxPaymentActive c' = some m' ∧
    (maxPaymentActive c = none ∨ ∃ m, maxPaymentActive c = some m ∧ m' < m)

/-- `c'` tightens exactly the faucet allowlist: the set of admitted assets
shrinks (an inactive list admits every asset). -/
def TightensFaucets (c c' : PaymentHandlerOptions) : Prop :=
  c'.maxPayment = c.maxPayment ∧
  c'.allowedNetworks = c.allowedNetworks ∧
  ∀ s, faucetAllowed c' s → faucetAllowed c s

/-- `c'` tightens exactly the network allowlist. -/
def TightensNetworks (c c' : PaymentHandlerOptions) : Prop :=
  c'.maxPayment = c.maxPayment ∧
  c'.allowedFaucets = c.allowedFaucets ∧
  ∀ s, networkAllowed c' s → networkAllowed c s

def c9Base : PaymentHandlerOptions := ⟨some 100, none, none⟩

def c9Tight : PaymentHandlerOptions := ⟨some 100, some ["0xfaucet"], none⟩

def c9Offer : MidenPaymentRequirements :=
  ⟨"exact", "miden:testnet", "200", "0xr", some 300, "0xother", none⟩

/-! ## The zod schema and `parsePaymentRequired` (payment-handler.ts:21-38, 88-112)

`PaymentRequiredSchema.safeParse` over the JSON value produced by
`response.json()`.  On a JavaScript object, property access sees the
last occurrence of a duplicated key (JSON.parse keeps the last), so
field lookup is last-wins (`jGet`).  `z.string()`/`z.number()` fail on
absent keys and on values of any other type (including `null`);
`.optional()` additionally accepts an absent key, but not a
wrongly-typed present one; `z.unknown().optional()` accepts anything;
unknown keys are stripped.  `z.number()` also accepts non-integer
floats, which our `Json` AST does not represent; every claim here
concerns integer-valued or absent numbers, where the models agree. -/

/-- Field access on a parsed JSON object: last occurrence wins. -/
def jGet (kvs : List (String × Json)) (k : String) : Option Json :=
  (kvs.reverse).lookup k

/-- `z.string()` on field `k`. -/
def getStr (kvs : List (String × Json)) (k : String) : Option String :=
  match jGet kvs k with
  | some (Json.str s) => some s
  | _ => none

/-- `z.number()` on field `k` (integer-valued numbers). -/
def getNum (kvs : List (String × Json)) (k : String) : Option Int :=
  match jGet kvs k with
  | some (Json.num n) => some n
  | _ => none

/-- `z.array(...)` on field `k`: the raw element list. -/
def getArr (kvs : List (String × Json)) (k : String) : Option (List Json) :=
  match jGet kvs k with
  | some (Json.arr items) => some items
  | _ => none

/-- `z.number().optional()` on field `k`. -/
def getOptNum (kvs : List (String × Json)) (k : String) : Option (Option Int) :=
  match jGet kvs k with
  | none => some none
  | some (Json.num n) => some (some n)
  | some _ => none

/-- `z.string().optional()` on field `k`. -/
def getOptStr (kvs : List (String × Json)) (k : String) : Option (Option String) :=
  match jGet kvs k with
  | none => some none
  | some (Json.str s) => some (some s)
  | some _ => none

/-- `z.record(z.string(), z.string())`: every value must be a string. -/
def allStrPairs : List (String × Json) → Option (List (String × String))
  | [] => some []
  | (k, Json.str v) :: rest => (allStrPairs rest).map (fun t => (k, v) :: t)
  | _ :: _ => none

/-- The inner requirement object of the schema (payment-handler.ts:23-31):
required string fields `scheme`, `network`, `amount`, `payTo`, `asset`;
`maxTimeoutSeconds: z.number().optional()`; `extra: z.unknown().optional()`. -/
def reqParse (j : Json) : Option MidenPaymentRequirements :=
  match j with
  | .obj kvs =>
    (getStr kvs "scheme").bind fun scheme =>
    (getStr kvs "network").bind fun network =>
    (getStr kvs "amount").bind fun amount =>
    (getStr kvs "payTo").bind fun payTo =>
    (getStr kvs "asset").bind fun asset =>
    (getOptNum kvs "maxTimeoutSeconds").bind fun mts =>
    some ⟨scheme, network, amount, payTo, mts, asset, jGet kvs "extra"⟩
  | _ => none

/-- The optional `resource` object (payment-handler.ts:32-36). -/
def resourceParse (j : Json) : Option ResourceInfo :=
  match j with
  | .obj kvs =>
    (getStr kvs "url").bind fun url =>
    (getStr kvs "method").bind fun method =>
    (match jGet kvs "headers" with
     | none => some none
     | some (Json.obj hkvs) => (allStrPairs hkvs).map some
     | some _ => none).bind fun hs =>
    some ⟨url, method, hs⟩
  | _ => none

def parseReqList : List Json → Option (List MidenPaymentRequirements)
  | [] => some []
  | x :: xs => (reqParse x).bind fun r => (parseReqList xs).map fun rs => r :: rs

/-- `PaymentRequiredSchema.safeParse` on a parsed JSON value. -/
def schemaParse (j : Json) : Option PaymentRequired :=
  match j with
  | .obj kvs =>
    (getNum kvs "x402Version").bind fun ver =>
    (getArr kvs "accepts").bind fun items =>
    (parseReqList items).bind fun reqs =>
    (match jGet kvs "resource" with
     | none => some none
     | some rj => (resourceParse rj).map some).bind fun res =>
    (getOptStr kvs "error").bind fun err =>
    some ⟨ver, reqs, res, err⟩
  | _ => none

/-- `parsePaymentRequired` (payment-handler.ts:88-112): non-402 statuses
return `null` before the body is read; `response.json()` throwing and
schema failure both yield `null`; finally `x402Version !== 2` yields
`null`. -/
def parsePaymentRequired (status : Nat) (body : String) : Option PaymentRequired :=
  if status ≠ 402 then none
  else
    match jsonParse body with
    | none => none
    | some j =>
      match schemaParse j with
      | none => none
      | some pr => if pr.x402Version ≠ 2 then none else some pr

def c6Body : String :=
  "\x7b\"x402Version\":2,\"accepts\":[\x7b\"scheme\":\"exact\",\"network\":\"miden:testnet\",\"amount\":\"500\",\"payTo\":\"0xrecipient\",\"asset\":\"0xfaucet\"\x7d]\x7d"

def c6Req : MidenPaymentRequirements :=
  ⟨"exact", "miden:testnet", "500", "0xrecipient", none, "0xfaucet", none⟩

def c6WitBody : String := "\x7b\"x402Version\":2,\"accepts\":[]\x7d"

/-! ## `createPayment` and `handlePaymentRequired` (payment-handler.ts:172-241)

The external wallet capability `createP2IDProof` is an oracle
`WalletFn`; a model run returns the ordered trace of wallet invocations
next to the result.  `createPayment` evaluates
`BigInt(requirements.amount)` (line 177) before — and outside — the
`try` block guarding the wallet call, so a malformed amount escapes as
an uncaught `SyntaxError` (`HandlerErr.syntaxError`); a wallet rejection
is re-thrown as "Failed to create P2ID proof: ..."
(`HandlerErr.proofError`). -/

structure WalletCall where
  recipient : String
  asset : String
  amount : Int
  noteType : String
deriving DecidableEq

structure ProofOut where
  provenTransactionHex : String
  transactionId : String
deriving DecidableEq

inductive HandlerErr where
  | syntaxError
  | proofError (msg : String)
deriving DecidableEq

/-- The external wallet capability: recipient, asset, amount, note type. -/
def WalletFn : Type := String → String → Int → String → Except String ProofOut

/-- `createPayment` (payment-handler.ts:172-222). -/
def createPayment (wallet : WalletFn) (acct : String)
    (requirements : MidenPaymentRequirements) (resource : Option ResourceInfo) :
    List WalletCall × Except HandlerErr PaymentResult :=
  match strToBigInt requirements.amount with
  | none => ([], .error .syntaxError)
  | some amount =>
    match wallet requirements.payTo requirements.asset amount "public" with
    | .error msg =>
      ([⟨requirements.payTo, requirements.asset, amount, "public"⟩],
       .error (.proofError msg))
    | .ok pf =>
      ([⟨requirements.payTo, requirements.asset, amount, "public"⟩],
       .ok ⟨pf.transactionId,
            encodePaymentHeader
              ⟨2, requirements, resource, ⟨acct, pf.provenTransactionHex, pf.transactionId⟩⟩,
            requirements⟩)

/-- `handlePaymentRequired` (payment-handler.ts:230-241): parse, select,
create; a `null` from parse or select returns `null` with no wallet
interaction; the selector's `BigInt` `SyntaxError` also escapes here. -/
def handlePaymentRequired (wallet : WalletFn) (acct : String)
    (o : PaymentHandlerOptions) (status : Nat) (body : String) :
    List WalletCall × Except HandlerErr (Option PaymentResult) :=
  match parsePaymentRequired status body with
  | none => ([], .ok none)
  | some pr =>
    match selectRequirement o pr.accepts with
    | .error _ => ([], .error .syntaxError)
    | .ok none => ([], .ok none)
    | .ok (some req) =>
      match createPayment wallet acct req pr.resource with
      | (calls, .error e) => (calls, .error e)
      | (calls, .ok r) => (calls, .ok (some r))

def c5Wallet : WalletFn := fun _ _ _ _ => Except.ok ⟨"cafebabe", "tx-fetch-001"⟩

def c5Body : String :=
  "\x7b\"x402Version\":2,\"accepts\":[\x7b\"scheme\":\"exact\",\"network\":\"miden:testnet\",\"amount\":\"500\",\"payTo\":\"0xrecipient\",\"asset\":\"0xfaucet\",\"maxTimeoutSeconds\":300\x7d]\x7d"

def c5Req : MidenPaymentRequirements :=
  ⟨"exact", "miden:testnet", "500", "0xrecipient", some 300, "0xfaucet", none⟩

def c5BadBody : String :=
  "\x7b\"x402Version\":2,\"accepts\":[\x7b\"scheme\":\"exact\",\"network\":\"miden:testnet\",\"amount\":\"not-a-number\",\"payTo\":\"0xrecipient\",\"asset\":\"0xfaucet\",\"maxTimeoutSeconds\":300\x7d]\x7d"

def c5BadReq : MidenPaymentRequirements :=
  ⟨"exact", "miden:testnet", "not-a-number", "0xrecipient", some 300, "0xfaucet", none⟩

/-! ## `midenFetch` / `midenFetchWithCallback` (fetch.ts:53-112, 135-178)

The HTTP layer is modelled by the two responses `resp1`/`resp2` the two
possible `fetch` calls would return, an opaque type `α` for the
remaining `RequestInit` fields (destructured off the x402 options and
passed through verbatim), and the outcome records the ordered request
trace — each request carrying its `Payment` header, `none` on the first
request — the wallet-call trace, and the returned response:
`.original` is the first response object as-is, `.synthetic r` a newly
constructed `Response`, `.retried r` the second response as-is.  An
error escaping `handlePaymentRequired` propagates out of both
functions. -/

structure Resp where
  status : Nat
  body : String
deriving DecidableEq

structure MidenFetchOptions (α : Type) where
  maxPayment : Option Int
  allowedFaucets : Option (List String)
  allowedNetworks : Option (List String)
  dryRun : Bool
  rest : α

structure RequestRec (α : Type) where
  opts : α
  payment : Option String
deriving DecidableEq

inductive FetchResult where
  | original
  | synthetic (r : Resp)
  | retried (r : Resp)
deriving DecidableEq

def handlerOptions {α : Type} (o : MidenFetchOptions α) : PaymentHandlerOptions :=
  ⟨o.maxPayment, o.allowedFaucets, o.allowedNetworks⟩

/-- The body of the synthetic 402 built at fetch.ts:89-94. -/
def syntheticBody : String :=
  jsonStringify (Json.obj
    [("error", Json.str "No compatible payment scheme found"),
     ("x402Version", Json.num 2)])

structure FetchOutcome (α : Type) where
  requests : List (RequestRec α)
  walletCalls : List WalletCall
  result : Except HandlerErr FetchResult

/-- `midenFetch` (fetch.ts:53-112): non-402 and dry-run pass the first
response through; a failed negotiation returns a fresh synthetic 402;
a successful one retries with the `Payment` header and returns the
second response whatever its status. -/
def midenFetch {α : Type} (wallet : WalletFn) (acct : String)
    (o : MidenFetchOptions α) (resp1 resp2 : Resp) : FetchOutcome α :=
  if resp1.status ≠ 402 then ⟨[⟨o.rest, none⟩], [], .ok .original⟩
  else if o.dryRun then ⟨[⟨o.rest, none⟩], [], .ok .original⟩
  else
    match handlePaymentRequired wallet acct (handlerOptions o) resp1.status resp1.body with
    | (calls, .error e) => ⟨[⟨o.rest, none⟩], calls, .error e⟩
    | (calls, .ok none) => ⟨[⟨o.rest, none⟩], calls, .ok (.synthetic ⟨402, syntheticBody⟩)⟩
    | (calls, .ok (some result)) =>
      ⟨[⟨o.rest, none⟩, ⟨o.rest, some result.paymentHeader⟩], calls, .ok (.retried resp2)⟩

/-- `midenFetchWithCallback` (fetch.ts:135-178): same flow, but a failed
negotiation returns the original response object (fetch.ts:160), and on
success the callback receives the payment result before the retry. -/
def midenFetchWithCallback {α : Type} (wallet : WalletFn) (acct : String)
    (o : MidenFetchOptions α) (resp1 resp2 : Resp) :
    FetchOutcome α × List PaymentResult :=
  if resp1.status ≠ 402 ∨ o.dryRun then (⟨[⟨o.rest, none⟩], [], .ok .original⟩, [])
  else
    match handlePaymentRequired wallet acct (handlerOptions o) resp1.status resp1.body with
    | (calls, .error e) => (⟨[⟨o.rest, none⟩], calls, .error e⟩, [])
    | (calls, .ok none) => (⟨[⟨o.rest, none⟩], calls, .ok .original⟩, [])
    | (calls, .ok (some result)) =>
      (⟨[⟨o.rest, none⟩, ⟨o.rest, some result.paymentHeader⟩], calls, .ok (.retried resp2)⟩,
       [result])

def plainOpts : MidenFetchOptions Unit := ⟨none, none, none, false, ()⟩

def dryOpts : MidenFetchOptions Unit := ⟨none, none, none, true, ()⟩

def c7Res : PaymentResult :=
  ⟨"tx-fetch-001",
   encodePaymentHeader ⟨2, c5Req, none, ⟨"0xagent", "cafebabe", "tx-fetch-001"⟩⟩,
   c5Req⟩

/-! ## Wallet input validation (wallet.ts:216-264, 278-345)

`sendPayment` and `createP2IDProof` validate before touching the client:
`amount <= 0n` throws "Amount must be positive", then
`HEX_RE = /^(0x)?[0-9a-fA-F]+$/` is tested on `recipientId` and
`faucetId` in that order ("Invalid hex format for ...";
`createP2IDProof` re-tests `recipientId` a second time under the
"payTo" label, dead code kept in the model).  `AccountId.fromHex` is an
oracle (`fromHexOk`; its wrapped "Invalid account ID: ..." message is
modelled by its constant prefix), and the client calls that follow are
oracles too; the trace lists each client interaction in call order, so
an empty trace means nothing was built, executed, proved, or submitted
and the wallet state is unchanged. -/

def isHexDigitChar (c : Char) : Bool :=
  ('0' ≤ c && c ≤ '9') || ('a' ≤ c && c ≤ 'f') || ('A' ≤ c && c ≤ 'F')

/-- `HEX_RE.test`: the regex matches iff, after an optional `0x` prefix,
one or more hex digits remain (a string starting `0x` can only match by
consuming the prefix, since `x` is not a hex digit). -/
def hexTest (s : String) : Bool :=
  match s.data with
  | '0' :: 'x' :: rest => !rest.isEmpty && rest.all isHexDigitChar
  | cs => !cs.isEmpty && cs.all isHexDigitChar

inductive ClientCall where
  | newSendTransactionRequest (sender target faucet noteType : String) (amount : Int)
  | submitNewTransaction (sender : String)
  | executeTransaction (sender : String)
  | proveTransaction
deriving DecidableEq

/-- `sendPayment` (wallet.ts:216-264). -/
def sendPayment (fromHexOk : String → Bool) (submitRes : Except String String)
    (acct recipientId faucetId : String) (amount : Int) (noteType : String) :
    List ClientCall × Except String String :=
  if amount ≤ 0 then ([], .error "Amount must be positive")
  else if ¬hexTest recipientId then ([], .error "Invalid hex format for recipientId")
  else if ¬hexTest faucetId then ([], .error "Invalid hex format for faucetId")
  else if ¬(fromHexOk acct && fromHexOk recipientId && fromHexOk faucetId) then
    ([], .error "Invalid account ID")
  else
    ([.newSendTransactionRequest acct recipientId faucetId noteType amount,
      .submitNewTransaction acct], submitRes)

/-- `createP2IDProof` (wallet.ts:278-345): executes and proves locally,
never submits. -/
def createP2IDProof (fromHexOk : String → Bool) (execRes : Except String Unit)
    (proveRes : Except String ProofOut) (acct recipientId faucetId : String)
    (amount : Int) (noteType : String) : List ClientCall × Except String ProofOut :=
  if amount ≤ 0 then ([], .error "Amount must be positive")
  else if ¬hexTest recipientId then ([], .error "Invalid hex format for recipientId")
  else if ¬hexTest faucetId then ([], .error "Invalid hex format for faucetId")
  else if ¬hexTest recipientId then ([], .error "Invalid hex format for payTo")
  else if ¬(fromHexOk acct && fromHexOk recipientId && fromHexOk faucetId) then
    ([], .error "Invalid account ID")
  else
    match execRes with
    | .error e =>
      ([.newSendTransactionRequest acct recipientId faucetId noteType amount,
        .executeTransaction acct], .error e)
    | .ok _ =>
      match proveRes with
      | .error e =>
        ([.newSendTransactionRequest acct recipientId faucetId noteType amount,
          .executeTransaction acct, .proveTransaction], .error e)
      | .ok pf =>
        ([.newSendTransactionRequest acct recipientId faucetId noteType amount,
          .executeTransaction acct, .proveTransaction], .ok pf)

/-! # Theorems -/

theorem charToNat_ofNat {n : Nat} (hv : n.isValidChar) :
    (Char.ofNat n).toNat = n := by
  simp [Char.ofNat, hv, Char.toNat, Char.ofNatAux, UInt32.toNat, UInt32.ofNat']

theorem char_eq_of_toNat_eq {a b : Char} (h : a.toNat = b.toNat) : a = b := by
  cases a with
  | mk va ha =>
    cases b with
    | mk vb hb =>
      have : va = vb := by
        apply UInt32.toNat.inj
        exact h
      subst this
      rfl

theorem digitChar_toNat {n : Nat} (h : n < 10) : (digitChar n).toNat = 48 + n :=
  charToNat_ofNat (Or.inl (by omega))

theorem isDigit10_iff (c : Char) : isDigit10 c = true ↔ 48 ≤ c.toNat ∧ c.toNat ≤ 57 := by
  unfold isDigit10
  constructor
  · intro h
    simp only [decide_eq_true_eq] at h
    exact ⟨h.1, h.2⟩
  · intro h
    simp only [decide_eq_true_eq]
    exact ⟨h.1, h.2⟩

theorem isDigit10_digitChar {n : Nat} (h : n < 10) : isDigit10 (digitChar n) = true := by
  rw [isDigit10_iff, digitChar_toNat h]
  omega

theorem natDigitsF_spec :
    ∀ fuel n, n < 10 ^ fuel → natFromDigits (natDigitsF fuel n) = n := by
  intro fuel
  induction fuel with
  | zero =>
    intro n hn
    have : n = 0 := by simpa using hn
    subst this
    rfl
  | succ fuel ih =>
    intro n hn
    unfold natDigitsF
    by_cases h : n < 10
    · rw [if_pos h]
      show 0 * 10 + ((digitChar n).toNat - 48) = n
      rw [digitChar_toNat h]
      omega
    · rw [if_neg h]
      unfold natFromDigits
      rw [List.foldl_append]
      have hdiv : n / 10 < 10 ^ fuel := by
        rw [Nat.div_lt_iff_lt_mul (by omega)]
        calc n < 10 ^ (fuel + 1) := hn
        _ = 10 ^ fuel * 10 := by ring
      have hrec := ih (n / 10) hdiv
      unfold natFromDigits at hrec
      rw [hrec]
      show n / 10 * 10 + ((digitChar (n % 10)).toNat - 48) = n
      rw [digitChar_toNat (by omega)]
      omega

theorem self_lt_ten_pow (n : Nat) : n < 10 ^ (n + 1) := by
  calc n < 2 ^ n := Nat.lt_two_pow n
  _ ≤ 10 ^ n := Nat.pow_le_pow_left (by omega) n
  _ ≤ 10 ^ (n + 1) := Nat.pow_le_pow_right (by omega) (by omega)

theorem natFromDigits_natDigits (n : Nat) : natFromDigits (natDigits n) = n :=
  natDigitsF_spec (n + 1) n (self_lt_ten_pow n)

theorem natDigits_ne_nil (n : Nat) : natDigits n ≠ [] := by
  unfold natDigits natDigitsF
  by_cases h : n < 10 <;> simp [h]

theorem natDigitsF_all_digits :
    ∀ fuel n, ∀ c ∈ natDigitsF fuel n, isDigit10 c = true := by
  intro fuel
  induction fuel with
  | zero => intro n c hc; cases hc
  | succ fuel ih =>
    intro n c
    unfold natDigitsF
    by_cases h : n < 10
    · rw [if_pos h]
      simp only [List.mem_singleton]
      rintro rfl
      exact isDigit10_digitChar h
    · rw [if_neg h]
      simp only [List.mem_append, List.mem_singleton]
      rintro (hc | rfl)
      · exact ih (n / 10) c hc
      · exact isDigit10_digitChar (by omega)

theorem natDigits_all_digits (n : Nat) :
    ∀ c ∈ natDigits n, isDigit10 c = true :=
  natDigitsF_all_digits (n + 1) n

theorem natDigitsF_head_ne_zero :
    ∀ fuel n, 1 ≤ n → n < 10 ^ fuel →
      ∀ c, (natDigitsF fuel n).head? = some c → c ≠ '0' := by
  intro fuel
  induction fuel with
  | zero => intro n h1 h2; omega
  | succ fuel ih =>
    intro n h1 h2 c hc
    unfold natDigitsF at hc
    by_cases hlt : n < 10
    · rw [if_pos hlt] at hc
      simp only [List.head?_cons, Option.some.injEq] at hc
      subst hc
      intro heq
      have hd : (digitChar n).toNat = 48 + n := digitChar_toNat hlt
      rw [heq] at hd
      have : ('0' : Char).toNat = 48 := rfl
      omega
    · rw [if_neg hlt] at hc
      have hge : 1 ≤ n / 10 := by omega
      have hdiv : n / 10 < 10 ^ fuel := by
        rw [Nat.div_lt_iff_lt_mul (by omega)]
        calc n < 10 ^ (fuel + 1) := h2
        _ = 10 ^ fuel * 10 := by ring
      obtain ⟨a, as, ha⟩ : ∃ a as, natDigitsF fuel (n / 10) = a :: as := by
        cases hh : natDigitsF fuel (n / 10) with
        | nil =>
          exfalso
          have := natDigitsF_spec fuel (n / 10) hdiv
          rw [hh] at this
          simp [natFromDigits] at this
          omega
        | cons a as => exact ⟨a, as, rfl⟩
      rw [ha, List.cons_append, List.head?_cons] at hc
      have hac : a = c := by injection hc
      subst hac
      exact ih (n / 10) hge hdiv a (by rw [ha]; rfl)

/-- `natDigits` output never trips the JSON leading-zero restriction. -/
theorem natDigits_leading_zero_ok (n : Nat) :
    ¬((natDigits n).head? = some '0' ∧ (natDigits n).length ≠ 1) := by
  rintro ⟨hhead, hlen⟩
  by_cases h0 : n = 0
  · subst h0
    exact hlen (by rfl)
  · exact natDigitsF_head_ne_zero (n + 1) n (by omega) (self_lt_ten_pow n)
      '0' hhead rfl

theorem takeWhile_all_append {p : Char → Bool} {l l' : List Char}
    (hall : ∀ c ∈ l, p c = true)
    (hl' : ∀ c, l'.head? = some c → p c = false) :
    (l ++ l').takeWhile p = l ∧ (l ++ l').dropWhile p = l' := by
  induction l with
  | nil =>
    simp only [List.nil_append]
    cases l' with
    | nil => exact ⟨rfl, rfl⟩
    | cons c cs =>
      have := hl' c rfl
      simp [List.takeWhile, List.dropWhile, this]
  | cons a as ih =>
    have ha := hall a (by simp)
    have ihr := ih (fun c hc => hall c (by simp [hc]))
    simp only [List.cons_append, List.takeWhile_cons, List.dropWhile_cons, ha]
    simp [ihr.1, ihr.2]

theorem parseNatNum_natDigits (m : Nat) (rest : List Char)
    (hrest : ∀ c, rest.head? = some c → isDigit10 c = false) :
    parseNatNum (natDigits m ++ rest) = some (m, rest) := by
  have htd := takeWhile_all_append (natDigits_all_digits m) hrest
  unfold parseNatNum
  simp only [htd.1, htd.2]
  rw [if_neg (by simp [natDigits_ne_nil m]), if_neg (natDigits_leading_zero_ok m),
    natFromDigits_natDigits]

theorem intChars_head (n : Int) :
    ∃ c cs, intChars n = c :: cs ∧ (c = '-' ∨ isDigit10 c = true) := by
  unfold intChars
  by_cases h : n < 0
  · exact ⟨'-', _, by rw [if_pos h], Or.inl rfl⟩
  · rw [if_neg h]
    obtain ⟨a, as, ha⟩ := List.exists_cons_of_ne_nil (natDigits_ne_nil n.toNat)
    refine ⟨a, as, ha, Or.inr ?_⟩
    exact natDigits_all_digits n.toNat a (by rw [ha]; simp)

theorem parseNum_intChars (n : Int) (rest : List Char)
    (hrest : ∀ c, rest.head? = some c → isDigit10 c = false) :
    parseNum (intChars n ++ rest) = some (.num n, rest) := by
  unfold intChars
  by_cases h : n < 0
  · rw [if_pos h, List.cons_append]
    show (parseNatNum (natDigits n.natAbs ++ rest)).map
        (fun p => (Json.num (-(p.1 : Int)), p.2)) = some (.num n, rest)
    rw [parseNatNum_natDigits n.natAbs rest hrest]
    show some (Json.num (-((n.natAbs : Nat) : Int)), rest) = some (.num n, rest)
    have hv : -((n.natAbs : Nat) : Int) = n := by omega
    rw [hv]
  · rw [if_neg h]
    obtain ⟨a, as, ha⟩ := List.exists_cons_of_ne_nil (natDigits_ne_nil n.toNat)
    have hd : isDigit10 a = true :=
      natDigits_all_digits n.toNat a (by rw [ha]; simp)
    have hne : a ≠ '-' := by
      intro heq
      rw [isDigit10_iff] at hd
      rw [heq] at hd
      have : ('-' : Char).toNat = 45 := rfl
      omega
    have hstep : parseNum (natDigits n.toNat ++ rest)
        = (parseNatNum (natDigits n.toNat ++ rest)).map
            (fun p => (.num (p.1 : Int), p.2)) := by
      rw [ha, List.cons_append]
      unfold parseNum
      split
      · rename_i rest' heq
        rw [List.cons.injEq] at heq
        exact absurd heq.1 hne
      · rw [← List.cons_append, ← ha]
    rw [hstep, parseNatNum_natDigits n.toNat rest hrest]
    show some (Json.num ((n.toNat : Nat) : Int), rest) = some (.num n, rest)
    have hv : ((n.toNat : Nat) : Int) = n := by omega
    rw [hv]

theorem hexVal_hexDigitChar {n : Nat} (h : n < 16) :
    hexVal (hexDigitChar n) = some n := by
  unfold hexVal hexDigitChar
  by_cases h10 : n < 10
  · rw [if_pos h10, charToNat_ofNat (Or.inl (by omega)), if_pos (by omega)]
    congr 1
    omega
  · rw [if_neg h10, charToNat_ofNat (Or.inl (by omega)), if_neg (by omega),
      if_pos (by omega)]
    congr 1
    omega

theorem charOfNat_toNat (c : Char) : Char.ofNat c.toNat = c :=
  char_eq_of_toNat_eq (charToNat_ofNat c.valid)

theorem pscF_close (fuel : Nat) (rest : List Char) :
    parseStringCharsF (fuel + 1) ('"' :: rest) = some ([], rest) := rfl

theorem pscF_esc_quote (fuel : Nat) (X : List Char) :
    parseStringCharsF (fuel + 1) ('\\' :: '"' :: X)
      = (parseStringCharsF fuel X).map (fun p => ('"' :: p.1, p.2)) := rfl

theorem pscF_esc_backslash (fuel : Nat) (X : List Char) :
    parseStringCharsF (fuel + 1) ('\\' :: '\\' :: X)
      = (parseStringCharsF fuel X).map (fun p => ('\\' :: p.1, p.2)) := rfl

theorem pscF_esc_b (fuel : Nat) (X : List Char) :
    parseStringCharsF (fuel + 1) ('\\' :: 'b' :: X)
      = (parseStringCharsF fuel X).map (fun p => (Char.ofNat 8 :: p.1, p.2)) := rfl

theorem pscF_esc_t (fuel : Nat) (X : List Char) :
    parseStringCharsF (fuel + 1) ('\\' :: 't' :: X)
      = (parseStringCharsF fuel X).map (fun p => (Char.ofNat 9 :: p.1, p.2)) := rfl

theorem pscF_esc_n (fuel : Nat) (X : List Char) :
    parseStringCharsF (fuel + 1) ('\\' :: 'n' :: X)
      = (parseStringCharsF fuel X).map (fun p => (Char.ofNat 10 :: p.1, p.2)) := rfl

theorem pscF_esc_f (fuel : Nat) (X : List Char) :
    parseStringCharsF (fuel + 1) ('\\' :: 'f' :: X)
      = (parseStringCharsF fuel X).map (fun p => (Char.ofNat 12 :: p.1, p.2)) := rfl

theorem pscF_esc_r (fuel : Nat) (X : List Char) :
    parseStringCharsF (fuel + 1) ('\\' :: 'r' :: X)
      = (parseStringCharsF fuel X).map (fun p => (Char.ofNat 13 :: p.1, p.2)) := rfl

theorem pscF_lit (fuel : Nat) (c : Char) (X : List Char)
    (h1 : c ≠ '"') (h2 : c ≠ '\\') (h3 : ¬ c.toNat < 32) :
    parseStringCharsF (fuel + 1) (c :: X)
      = (parseStringCharsF fuel X).map (fun p => (c :: p.1, p.2)) := by
  have key : ∀ B : Option (List Char × List Char),
      (if c = '"' then some ([], X) else if c = '\\' then B
       else if c.toNat < 32 then none
       else (parseStringCharsF fuel X).map (fun p => (c :: p.1, p.2)))
      = (parseStringCharsF fuel X).map (fun p => (c :: p.1, p.2)) := by
    intro B
    rw [if_neg h1, if_neg h2, if_neg h3]
  exact key _

theorem hex4_00xy (x y : Char) (vx vy : Nat)
    (hx : hexVal x = some vx) (hy : hexVal y = some vy) :
    hex4 '0' '0' x y = some (0 * 4096 + 0 * 256 + vx * 16 + vy) := by
  unfold hex4
  rw [hx, hy]
  rfl

theorem pscF_u00 (fuel : Nat) (x y : Char) (vx vy : Nat) (X : List Char)
    (hx : hexVal x = some vx) (hy : hexVal y = some vy)
    (hbound : vx * 16 + vy < 0xD800) :
    parseStringCharsF (fuel + 1) ('\\' :: 'u' :: '0' :: '0' :: x :: y :: X)
      = (parseStringCharsF fuel X).map
          (fun p => (Char.ofNat (vx * 16 + vy) :: p.1, p.2)) := by
  have harith : 0 * 4096 + 0 * 256 + vx * 16 + vy = vx * 16 + vy := by ring
  have key : ∀ G : Nat → Option (List Char × List Char),
      (match hex4 '0' '0' x y with
       | none => none
       | some v =>
         if 0xD800 ≤ v ∧ v < 0xDC00 then G v
         else if 0xDC00 ≤ v ∧ v < 0xE000 then none
         else (parseStringCharsF fuel X).map
             (fun p => (Char.ofNat v :: p.1, p.2)))
      = (parseStringCharsF fuel X).map
          (fun p => (Char.ofNat (vx * 16 + vy) :: p.1, p.2)) := by
    intro G
    rw [hex4_00xy x y vx vy hx hy]
    show (if 0xD800 ≤ 0 * 4096 + 0 * 256 + vx * 16 + vy
          ∧ 0 * 4096 + 0 * 256 + vx * 16 + vy < 0xDC00 then
        G (0 * 4096 + 0 * 256 + vx * 16 + vy)
      else if 0xDC00 ≤ 0 * 4096 + 0 * 256 + vx * 16 + vy
          ∧ 0 * 4096 + 0 * 256 + vx * 16 + vy < 0xE000 then none
      else (parseStringCharsF fuel X).map
          (fun p => (Char.ofNat (0 * 4096 + 0 * 256 + vx * 16 + vy) :: p.1, p.2)))
      = _
    rw [if_neg (by omega), if_neg (by omega), harith]
  exact key _

theorem escapeData_cons (c : Char) (cs : List Char) :
    escapeData (c :: cs) = escapeChar c ++ escapeData cs := rfl

theorem parseStringCharsF_escape (cs : List Char) : ∀ fuel rest,
    cs.length < fuel →
    parseStringCharsF fuel (escapeData cs ++ '"' :: rest) = some (cs, rest) := by
  induction cs with
  | nil =>
    intro fuel rest hf
    obtain ⟨f, rfl⟩ : ∃ f, fuel = f + 1 := ⟨fuel - 1, by omega⟩
    exact pscF_close f rest
  | cons c cs ih =>
    intro fuel rest hf
    obtain ⟨f, rfl⟩ : ∃ f, fuel = f + 1 := ⟨fuel - 1, by omega⟩
    have hf' : cs.length < f := by
      simp only [List.length_cons] at hf
      omega
    have ihf := ih f rest hf'
    rw [escapeData_cons, List.append_assoc]
    unfold escapeChar
    by_cases h1 : c = '"'
    · subst h1
      rw [if_pos rfl, List.cons_append, List.cons_append, List.nil_append,
        pscF_esc_quote, ihf]
      rfl
    · rw [if_neg h1]
      by_cases h2 : c = '\\'
      · subst h2
        rw [if_pos rfl, List.cons_append, List.cons_append, List.nil_append,
          pscF_esc_backslash, ihf]
        rfl
      · rw [if_neg h2]
        by_cases h3 : c.toNat = 8
        · rw [if_pos h3, List.cons_append, List.cons_append, List.nil_append,
            pscF_esc_b, ihf, ← h3, charOfNat_toNat]
          rfl
        · rw [if_neg h3]
          by_cases h4 : c.toNat = 9
          · rw [if_pos h4, List.cons_append, List.cons_append, List.nil_append,
              pscF_esc_t, ihf, ← h4, charOfNat_toNat]
            rfl
          · rw [if_neg h4]
            by_cases h5 : c.toNat = 10
            · rw [if_pos h5, List.cons_append, List.cons_append,
                List.nil_append, pscF_esc_n, ihf, ← h5, charOfNat_toNat]
              rfl
            · rw [if_neg h5]
              by_cases h6 : c.toNat = 12
              · rw [if_pos h6, List.cons_append, List.cons_append,
                  List.nil_append, pscF_esc_f, ihf, ← h6, charOfNat_toNat]
                rfl
              · rw [if_neg h6]
                by_cases h7 : c.toNat = 13
                · rw [if_pos h7, List.cons_append, List.cons_append,
                    List.nil_append, pscF_esc_r, ihf, ← h7, charOfNat_toNat]
                  rfl
                · rw [if_neg h7]
                  by_cases h8 : c.toNat < 32
                  · rw [if_pos h8, List.cons_append, List.cons_append,
                      List.cons_append, List.cons_append, List.cons_append,
                      List.cons_append, List.nil_append]
                    rw [pscF_u00 f _ _ (c.toNat / 16) (c.toNat % 16) _
                      (hexVal_hexDigitChar (by omega))
                      (hexVal_hexDigitChar (by omega)) (by omega)]
                    rw [ihf]
                    have hv : c.toNat / 16 * 16 + c.toNat % 16 = c.toNat := by
                      omega
                    rw [hv, charOfNat_toNat]
                    rfl
                  · rw [if_neg h8, List.cons_append, List.nil_append,
                      pscF_lit f c _ h1 h2 h8, ihf]
                    rfl

theorem escapeData_length (cs : List Char) :
    cs.length ≤ (escapeData cs).length := by
  induction cs with
  | nil => simp [escapeData]
  | cons c cs ih =>
    rw [escapeData_cons, List.length_append, List.length_cons]
    have : 1 ≤ (escapeChar c).length := by
      unfold escapeChar
      repeat' split
      all_goals simp
    omega

/-- Unescaping inverts escaping: the parser, entered after the opening
quote, consumes the escaped characters and the closing quote exactly. -/
theorem parseStringRest_escape (s : String) (rest : List Char) :
    parseStringRest (escapeData s.data ++ '"' :: rest) = some (s, rest) := by
  unfold parseStringRest
  rw [parseStringCharsF_escape s.data _ rest (by
    have h1 := escapeData_length s.data
    have h2 : (escapeData s.data ++ '"' :: rest).length
        = (escapeData s.data).length + (rest.length + 1) := by
      rw [List.length_append, List.length_cons]
    omega)]
  rfl

/-! ### Round trip: `parseVal` inverts `printJson` -/

theorem skipWs_cons {c : Char} (h : isJsonWs c = false) (l : List Char) :
    skipWs (c :: l) = c :: l := by
  simp [skipWs, List.dropWhile_cons, h]

theorem jsonFuel_pos (j : Json) : 1 ≤ jsonFuel j := by
  cases j <;> simp [jsonFuel]

theorem elemsFuel_pos (l : List Json) : 1 ≤ elemsFuel l := by
  cases l <;> simp [elemsFuel]

theorem membersFuel_pos (l : List (String × Json)) : 1 ≤ membersFuel l := by
  cases l <;> simp [membersFuel]

theorem pv_null (fuel : Nat) (X : List Char) :
    parseVal (fuel + 1) ('n' :: 'u' :: 'l' :: 'l' :: X) = some (.null, X) := rfl

theorem pv_true (fuel : Nat) (X : List Char) :
    parseVal (fuel + 1) ('t' :: 'r' :: 'u' :: 'e' :: X) = some (.bool true, X) := rfl

theorem pv_false (fuel : Nat) (X : List Char) :
    parseVal (fuel + 1) ('f' :: 'a' :: 'l' :: 's' :: 'e' :: X)
      = some (.bool false, X) := rfl

theorem pv_str (fuel : Nat) (X : List Char) :
    parseVal (fuel + 1) ('"' :: X)
      = (parseStringRest X).map (fun p => (.str p.1, p.2)) := rfl

theorem pv_arr_empty (fuel : Nat) (X : List Char) :
    parseVal (fuel + 1) ('[' :: ']' :: X) = some (.arr [], X) := rfl

theorem pv_obj_empty (fuel : Nat) (X : List Char) :
    parseVal (fuel + 1) ('{' :: '}' :: X) = some (.obj [], X) := rfl

theorem pv_lbracket (fuel : Nat) (X : List Char) :
    parseVal (fuel + 1) ('[' :: X)
      = (match skipWs X with
         | ']' :: rest2 => some (.arr [], rest2)
         | _ => (parseElems fuel X).map (fun p => (.arr p.1, p.2))) := rfl

theorem pv_lbrace (fuel : Nat) (X : List Char) :
    parseVal (fuel + 1) ('{' :: X)
      = (match skipWs X with
         | '}' :: rest2 => some (.obj [], rest2)
         | _ => (parseMembers fuel X).map (fun p => (.obj p.1, p.2))) := rfl

theorem pe_step (fuel : Nat) (cs : List Char) :
    parseElems (fuel + 1) cs
      = (match parseVal fuel cs with
         | none => none
         | some vr =>
           match skipWs vr.2 with
           | ',' :: rest2 => (parseElems fuel rest2).map (fun p => (vr.1 :: p.1, p.2))
           | ']' :: rest2 => some ([vr.1], rest2)
           | _ => none) := rfl

theorem char_ne_of_toNat_ne {c d : Char} (h : c.toNat ≠ d.toNat) : c ≠ d :=
  fun he => h (by rw [he])

theorem num_start_toNat {c : Char} (hd : c = '-' ∨ isDigit10 c = true) :
    c.toNat = 45 ∨ (48 ≤ c.toNat ∧ c.toNat ≤ 57) := by
  rcases hd with rfl | hdig
  · exact Or.inl rfl
  · exact Or.inr ((isDigit10_iff c).mp hdig)

theorem num_start_not_ws {c : Char} (hd : c = '-' ∨ isDigit10 c = true) :
    isJsonWs c = false := by
  have htc := num_start_toNat hd
  cases hws : isJsonWs c
  · rfl
  · exfalso
    simp only [isJsonWs, Bool.or_eq_true, decide_eq_true_eq] at hws
    rcases hws with rfl | rfl | rfl | rfl <;> revert htc <;> decide

theorem pv_num_dispatch (fuel : Nat) (c : Char) (l : List Char)
    (hd : c = '-' ∨ isDigit10 c = true) :
    parseVal (fuel + 1) (c :: l) = parseNum (c :: l) := by
  have htc := num_start_toNat hd
  have hw : isJsonWs c = false := num_start_not_ws hd
  have hn : c ≠ 'n' := char_ne_of_toNat_ne
    (by have hv : ('n' : Char).toNat = 110 := rfl; omega)
  have ht : c ≠ 't' := char_ne_of_toNat_ne
    (by have hv : ('t' : Char).toNat = 116 := rfl; omega)
  have hf : c ≠ 'f' := char_ne_of_toNat_ne
    (by have hv : ('f' : Char).toNat = 102 := rfl; omega)
  have hq : c ≠ '"' := char_ne_of_toNat_ne
    (by have hv : ('"' : Char).toNat = 34 := rfl; omega)
  have hlb : c ≠ '[' := char_ne_of_toNat_ne
    (by have hv : ('[' : Char).toNat = 91 := rfl; omega)
  have hlc : c ≠ '{' := char_ne_of_toNat_ne
    (by have hv : ('{' : Char).toNat = 123 := rfl; omega)
  have key : ∀ B1 B2 B3 B4 B5 B6 : List Char → Option (Json × List Char),
      (match skipWs (c :: l) with
       | [] => none
       | c' :: rest =>
         if c' = 'n' then B1 rest
         else if c' = 't' then B2 rest
         else if c' = 'f' then B3 rest
         else if c' = '"' then B4 rest
         else if c' = '[' then B5 rest
         else if c' = '{' then B6 rest
         else if c' = '-' ∨ isDigit10 c' then parseNum (c' :: rest)
         else none)
      = parseNum (c :: l) := by
    intro B1 B2 B3 B4 B5 B6
    rw [skipWs_cons hw]
    show (if c = 'n' then B1 l
      else if c = 't' then B2 l
      else if c = 'f' then B3 l
      else if c = '"' then B4 l
      else if c = '[' then B5 l
      else if c = '{' then B6 l
      else if c = '-' ∨ isDigit10 c = true then parseNum (c :: l)
      else none) = parseNum (c :: l)
    rw [if_neg hn, if_neg ht, if_neg hf, if_neg hq, if_neg hlb, if_neg hlc,
      if_pos hd]
  exact key _ _ _ _ _ _

theorem num_start_props {c : Char} (hd : c = '-' ∨ isDigit10 c = true) :
    isJsonWs c = false ∧ c ≠ ']' ∧ c ≠ '}' := by
  have htc := num_start_toNat hd
  exact ⟨num_start_not_ws hd,
    char_ne_of_toNat_ne (by have hv : (']' : Char).toNat = 93 := rfl; omega),
    char_ne_of_toNat_ne (by have hv : ('}' : Char).toNat = 125 := rfl; omega)⟩

/-- Every printed JSON value starts with a non-whitespace character that is
neither `]` nor `}`. -/
theorem printJson_head (j : Json) :
    ∃ c t, printJson j = c :: t ∧ isJsonWs c = false ∧ c ≠ ']' ∧ c ≠ '}' := by
  cases j with
  | num n =>
    obtain ⟨c, cs, hc, hd⟩ := intChars_head n
    obtain ⟨hw, hb, hcb⟩ := num_start_props hd
    exact ⟨c, cs, hc, hw, hb, hcb⟩
  | bool b =>
    cases b with
    | false => refine ⟨'f', _, rfl, ?_, ?_, ?_⟩ <;> decide
    | true => refine ⟨'t', _, rfl, ?_, ?_, ?_⟩ <;> decide
  | null => refine ⟨'n', _, rfl, ?_, ?_, ?_⟩ <;> decide
  | str s => refine ⟨'"', _, rfl, ?_, ?_, ?_⟩ <;> decide
  | arr es => refine ⟨'[', _, rfl, ?_, ?_, ?_⟩ <;> decide
  | obj kvs => refine ⟨'\x7b', _, rfl, ?_, ?_, ?_⟩ <;> decide

theorem printElems_cons_decomp (x : Json) (xs : List Json) (suffix : List Char) :
    ∃ c t, printJson x = c :: t ∧ isJsonWs c = false ∧ c ≠ ']' ∧ c ≠ '}' ∧
      printElems (x :: xs) ++ suffix
        = c :: (t ++ (match xs with
            | [] => suffix
            | _ :: _ => ',' :: printElems xs ++ suffix)) := by
  obtain ⟨c, t, hct, hw, hb, hcb⟩ := printJson_head x
  refine ⟨c, t, hct, hw, hb, hcb, ?_⟩
  cases xs with
  | nil => simp [printElems, hct]
  | cons y ys => simp [printElems, hct]

theorem printMembers_cons_head (kv : String × Json)
    (kvs : List (String × Json)) (suffix : List Char) :
    ∃ t, printMembers (kv :: kvs) ++ suffix = '"' :: t := by
  obtain ⟨k, v⟩ := kv
  cases kvs with
  | nil =>
    refine ⟨(escapeData k.data ++ ['"']) ++ (':' :: printJson v) ++ suffix, ?_⟩
    simp [printMembers, quoteString]
  | cons kv2 kvs2 =>
    refine ⟨(escapeData k.data ++ ['"'])
      ++ (':' :: printJson v ++ ',' :: printMembers (kv2 :: kvs2)) ++ suffix, ?_⟩
    simp [printMembers, quoteString]

theorem pm_step (fuel : Nat) (X : List Char) :
    parseMembers (fuel + 1) ('"' :: X)
      = (match parseStringRest X with
         | none => none
         | some kr =>
           match skipWs kr.2 with
           | ':' :: rest3 =>
             match parseVal fuel rest3 with
             | none => none
             | some vr =>
               match skipWs vr.2 with
               | ',' :: rest5 =>
                 (parseMembers fuel rest5).map (fun p => ((kr.1, vr.1) :: p.1, p.2))
               | '}' :: rest5 => some ([(kr.1, vr.1)], rest5)
               | _ => none
           | _ => none) := rfl

mutual

/-- The value parser inverts the printer (given enough fuel, and a
remainder that cannot be mistaken for more digits of a number). -/
theorem parseVal_print (j : Json) : ∀ fuel rest,
    jsonFuel j ≤ fuel →
    (∀ c, rest.head? = some c → isDigit10 c = false) →
    parseVal fuel (printJson j ++ rest) = some (j, rest) := by
  intro fuel rest hfuel hrest
  obtain ⟨f, rfl⟩ : ∃ f, fuel = f + 1 :=
    ⟨fuel - 1, by have := jsonFuel_pos j; omega⟩
  cases j with
  | null => exact pv_null f rest
  | bool b =>
    cases b
    · exact pv_false f rest
    · exact pv_true f rest
  | num n =>
    obtain ⟨c, cs, hc, hd⟩ := intChars_head n
    have hsplit : printJson (.num n) ++ rest = c :: (cs ++ rest) := by
      show intChars n ++ rest = _
      rw [hc]
      rfl
    rw [hsplit, pv_num_dispatch f c _ hd]
    have hback : c :: (cs ++ rest) = intChars n ++ rest := by
      rw [hc]
      rfl
    rw [hback]
    exact parseNum_intChars n rest hrest
  | str s =>
    have hsplit : printJson (.str s) ++ rest
        = '"' :: (escapeData s.data ++ '"' :: rest) := by
      show quoteString s ++ rest = _
      simp [quoteString]
    rw [hsplit, pv_str, parseStringRest_escape]
    rfl
  | arr es =>
    cases es with
    | nil => exact pv_arr_empty f rest
    | cons x xs =>
      have hfe : elemsFuel (x :: xs) ≤ f := by
        simp only [jsonFuel] at hfuel
        omega
      have hsplit : printJson (.arr (x :: xs)) ++ rest
          = '[' :: (printElems (x :: xs) ++ ']' :: rest) := by
        show ('[' :: (printElems (x :: xs) ++ [']'])) ++ rest = _
        simp
      rw [hsplit, pv_lbracket]
      obtain ⟨c, t, hct, hw, hb, hcb, hdec⟩ :=
        printElems_cons_decomp x xs (']' :: rest)
      rw [hdec, skipWs_cons hw]
      split
      · rename_i rest2 heq
        rw [List.cons.injEq] at heq
        exact absurd heq.1 hb
      · rw [← hdec, parseElems_print x xs f rest hfe]
        rfl
  | obj kvs =>
    cases kvs with
    | nil => exact pv_obj_empty f rest
    | cons kv kvs' =>
      have hfm : membersFuel (kv :: kvs') ≤ f := by
        simp only [jsonFuel] at hfuel
        omega
      have hsplit : printJson (.obj (kv :: kvs')) ++ rest
          = '{' :: (printMembers (kv :: kvs') ++ '}' :: rest) := by
        show ('{' :: (printMembers (kv :: kvs') ++ ['}'])) ++ rest = _
        simp
      rw [hsplit, pv_lbrace]
      obtain ⟨t, hdec⟩ := printMembers_cons_head kv kvs' ('}' :: rest)
      rw [hdec, skipWs_cons (by decide)]
      split
      · rename_i rest2 heq
        rw [List.cons.injEq] at heq
        exact absurd heq.1 (by decide)
      · rw [← hdec, show parseMembers f (printMembers (kv :: kvs') ++ '}' :: rest)
            = some (kv :: kvs', rest)
          from parseMembers_print kv.1 kv.2 kvs' f rest hfm]
        rfl
termination_by sizeOf j
decreasing_by
  all_goals subst_vars
  · simp_arith
  · rcases kv with ⟨a, b⟩
    simp_arith

theorem parseElems_print (x : Json) (xs : List Json) : ∀ fuel rest,
    elemsFuel (x :: xs) ≤ fuel →
    parseElems fuel (printElems (x :: xs) ++ ']' :: rest)
      = some (x :: xs, rest) := by
  intro fuel rest hfuel
  obtain ⟨f, rfl⟩ : ∃ f, fuel = f + 1 :=
    ⟨fuel - 1, by have := elemsFuel_pos (x :: xs); omega⟩
  have hmax : max (jsonFuel x) (elemsFuel xs) ≤ f := by
    simp only [elemsFuel] at hfuel
    omega
  have hfx : jsonFuel x ≤ f := le_trans (Nat.le_max_left _ _) hmax
  rw [pe_step]
  cases xs with
  | nil =>
    have hpe : printElems [x] ++ ']' :: rest = printJson x ++ ']' :: rest := by
      simp [printElems]
    rw [hpe, parseVal_print x f (']' :: rest) hfx (by
      intro c hc
      simp only [List.head?_cons, Option.some.injEq] at hc
      subst hc
      decide)]
    rfl
  | cons y ys =>
    have hfy : elemsFuel (y :: ys) ≤ f := le_trans (Nat.le_max_right _ _) hmax
    have hpe : printElems (x :: y :: ys) ++ ']' :: rest
        = printJson x ++ (',' :: (printElems (y :: ys) ++ ']' :: rest)) := by
      simp [printElems]
    rw [hpe, parseVal_print x f _ hfx (by
      intro c hc
      simp only [List.head?_cons, Option.some.injEq] at hc
      subst hc
      decide)]
    show (parseElems f (printElems (y :: ys) ++ ']' :: rest)).map
        (fun p => (x :: p.1, p.2)) = some (x :: y :: ys, rest)
    rw [parseElems_print y ys f rest hfy]
    rfl
termination_by 1 + sizeOf x + sizeOf xs
decreasing_by
  all_goals subst_vars
  all_goals simp_arith

theorem parseMembers_print (k : String) (v : Json)
    (kvs : List (String × Json)) : ∀ fuel rest,
    membersFuel ((k, v) :: kvs) ≤ fuel →
    parseMembers fuel (printMembers ((k, v) :: kvs) ++ '}' :: rest)
      = some ((k, v) :: kvs, rest) := by
  intro fuel rest hfuel
  obtain ⟨f, rfl⟩ : ∃ f, fuel = f + 1 :=
    ⟨fuel - 1, by have := membersFuel_pos ((k, v) :: kvs); omega⟩
  have hmax : max (jsonFuel v) (membersFuel kvs) ≤ f := by
    simp only [membersFuel] at hfuel
    omega
  have hfv : jsonFuel v ≤ f := le_trans (Nat.le_max_left _ _) hmax
  cases kvs with
  | nil =>
    have hpm : printMembers [(k, v)] ++ '}' :: rest
        = '"' :: (escapeData k.data
            ++ '"' :: (':' :: (printJson v ++ '}' :: rest))) := by
      simp [printMembers, quoteString]
    rw [hpm, pm_step, parseStringRest_escape]
    show (match parseVal f (printJson v ++ '}' :: rest) with
      | none => none
      | some vr =>
        match skipWs vr.2 with
        | ',' :: rest5 =>
          (parseMembers f rest5).map (fun p => ((k, vr.1) :: p.1, p.2))
        | '}' :: rest5 => some ([(k, vr.1)], rest5)
        | _ => none) = some ([(k, v)], rest)
    rw [parseVal_print v f _ hfv (by
      intro c hc
      simp only [List.head?_cons, Option.some.injEq] at hc
      subst hc
      decide)]
    rfl
  | cons kv2 kvs2 =>
    have hfm2 : membersFuel (kv2 :: kvs2) ≤ f :=
      le_trans (Nat.le_max_right _ _) hmax
    have hpm : printMembers ((k, v) :: kv2 :: kvs2) ++ '}' :: rest
        = '"' :: (escapeData k.data ++ '"' :: (':' :: (printJson v
            ++ ',' :: (printMembers (kv2 :: kvs2) ++ '}' :: rest)))) := by
      rcases kv2 with ⟨k2, v2⟩
      simp [printMembers, quoteString]
    rw [hpm, pm_step, parseStringRest_escape]
    show (match parseVal f (printJson v
        ++ ',' :: (printMembers (kv2 :: kvs2) ++ '}' :: rest)) with
      | none => none
      | some vr =>
        match skipWs vr.2 with
        | ',' :: rest5 =>
          (parseMembers f rest5).map (fun p => ((k, vr.1) :: p.1, p.2))
        | '}' :: rest5 => some ([(k, vr.1)], rest5)
        | _ => none) = some ((k, v) :: kv2 :: kvs2, rest)
    rw [parseVal_print v f _ hfv (by
      intro c hc
      simp only [List.head?_cons, Option.some.injEq] at hc
      subst hc
      decide)]
    show (parseMembers f (printMembers (kv2 :: kvs2) ++ '}' :: rest)).map
        (fun p => ((k, v) :: p.1, p.2)) = some ((k, v) :: kv2 :: kvs2, rest)
    rw [show parseMembers f (printMembers (kv2 :: kvs2) ++ '}' :: rest)
          = some (kv2 :: kvs2, rest)
      from parseMembers_print kv2.1 kv2.2 kvs2 f rest hfm2]
    rfl
termination_by 1 + sizeOf v + sizeOf kvs
decreasing_by
  all_goals subst_vars
  · simp_arith
  · simp_arith
  · rcases kv2 with ⟨a, b⟩
    simp_arith

end

theorem printJson_length_pos (j : Json) : 1 ≤ (printJson j).length := by
  obtain ⟨c, t, hct, -, -, -⟩ := printJson_head j
  rw [hct]
  simp

mutual

theorem jsonFuel_le (j : Json) : jsonFuel j ≤ 2 * (printJson j).length := by
  cases j with
  | null => decide
  | bool b => cases b <;> decide
  | num n =>
    have := printJson_length_pos (.num n)
    simp only [jsonFuel]
    omega
  | str s =>
    have := printJson_length_pos (.str s)
    simp only [jsonFuel]
    omega
  | arr es =>
    have h := elemsFuel_le es
    simp only [jsonFuel, printJson, List.length_cons, List.length_append,
      List.length_singleton]
    omega
  | obj kvs =>
    have h := membersFuel_le kvs
    simp only [jsonFuel, printJson, List.length_cons, List.length_append,
      List.length_singleton]
    omega

theorem elemsFuel_le (l : List Json) :
    elemsFuel l ≤ 2 + 2 * (printElems l).length := by
  cases l with
  | nil => decide
  | cons x xs =>
    have h1 := jsonFuel_le x
    cases xs with
    | nil =>
      have hmle : max (jsonFuel x) (elemsFuel ([] : List Json))
          ≤ 1 + 2 * (printJson x).length := by
        have hp := printJson_length_pos x
        refine Nat.max_le.mpr ⟨by omega, ?_⟩
        simp only [elemsFuel]
        omega
      simp only [elemsFuel, printElems]
      omega
    | cons y ys =>
      have h2 := elemsFuel_le (y :: ys)
      have hmle : max (jsonFuel x) (elemsFuel (y :: ys))
          ≤ 1 + 2 * ((printJson x).length + 1 + (printElems (y :: ys)).length) := by
        refine Nat.max_le.mpr ⟨by omega, by omega⟩
      have hlen : (printElems (x :: y :: ys)).length
          = (printJson x).length + 1 + (printElems (y :: ys)).length := by
        show (printJson x ++ ',' :: printElems (y :: ys)).length = _
        simp only [List.length_append, List.length_cons]
        omega
      have hstep : elemsFuel (x :: y :: ys)
          = 1 + max (jsonFuel x) (elemsFuel (y :: ys)) := rfl
      rw [hstep, hlen]
      omega

theorem membersFuel_le (l : List (String × Json)) :
    membersFuel l ≤ 2 + 2 * (printMembers l).length := by
  cases l with
  | nil => decide
  | cons kv kvs =>
    have h1 := jsonFuel_le kv.2
    cases kvs with
    | nil =>
      have hlen : (printMembers [kv]).length
          = (quoteString kv.1).length + 1 + (printJson kv.2).length := by
        show (quoteString kv.1 ++ ':' :: printJson kv.2).length = _
        simp only [List.length_append, List.length_cons]
        omega
      have hmle : max (jsonFuel kv.2) (membersFuel ([] : List (String × Json)))
          ≤ 1 + 2 * (printMembers [kv]).length := by
        refine Nat.max_le.mpr ⟨?_, ?_⟩
        · have := printJson_length_pos kv.2
          omega
        · simp only [membersFuel]
          have := printJson_length_pos kv.2
          omega
      simp only [membersFuel]
      omega
    | cons kv2 kvs2 =>
      have h2 := membersFuel_le (kv2 :: kvs2)
      have hlen : (printMembers (kv :: kv2 :: kvs2)).length
          = (quoteString kv.1).length + 1 + (printJson kv.2).length
            + 1 + (printMembers (kv2 :: kvs2)).length := by
        show (quoteString kv.1 ++ ':' :: printJson kv.2
            ++ ',' :: printMembers (kv2 :: kvs2)).length = _
        simp only [List.length_append, List.length_cons]
        omega
      have hmle : max (jsonFuel kv.2) (membersFuel (kv2 :: kvs2))
          ≤ 1 + 2 * (printMembers (kv :: kv2 :: kvs2)).length := by
        refine Nat.max_le.mpr ⟨by omega, by omega⟩
      have hstep : membersFuel (kv :: kv2 :: kvs2)
          = 1 + max (jsonFuel kv.2) (membersFuel (kv2 :: kvs2)) := rfl
      rw [hstep]
      omega

end

/-- The codec law at the JSON level: parsing a printed value gives it
back. -/
theorem jsonParse_stringify (j : Json) : jsonParse (jsonStringify j) = some j := by
  unfold jsonParse jsonStringify
  have hp := parseVal_print j (2 * (String.mk (printJson j)).data.length + 4) []
    (le_trans (jsonFuel_le j) (by
      have : (String.mk (printJson j)).data = printJson j := rfl
      rw [this]
      omega))
    (by intro c hc; cases hc)
  rw [List.append_nil] at hp
  rw [show (String.mk (printJson j)).data = printJson j from rfl, hp]
  rfl

/-! ### Round trips for UTF-8 and base64 -/

theorem charValid_ranges (c : Char) :
    c.toNat < 0xD800 ∨ (0xDFFF < c.toNat ∧ c.toNat < 0x110000) :=
  c.valid

theorem utf8DecodeF_encodeChar (c : Char) (fuel : Nat) (rest : List Nat) :
    utf8DecodeF (fuel + 1) (utf8EncodeChar c ++ rest)
      = c :: utf8DecodeF fuel rest := by
  have hval := charValid_ranges c
  by_cases h1 : c.toNat < 0x80
  · have henc : utf8EncodeChar c = [c.toNat] := by
      unfold utf8EncodeChar
      rw [if_pos h1]
    rw [henc]
    have key : ∀ B C D E : List Char,
        (if c.toNat < 0x80 then Char.ofNat c.toNat :: utf8DecodeF fuel rest
         else if 0xC2 ≤ c.toNat ∧ c.toNat < 0xE0 then B
         else if 0xE0 ≤ c.toNat ∧ c.toNat < 0xF0 then C
         else if 0xF0 ≤ c.toNat ∧ c.toNat < 0xF5 then D
         else E)
        = Char.ofNat c.toNat :: utf8DecodeF fuel rest := by
      intro B C D E
      rw [if_pos h1]
    have hkey : utf8DecodeF (fuel + 1) (c.toNat :: rest)
        = Char.ofNat c.toNat :: utf8DecodeF fuel rest := key _ _ _ _
    rw [show ([c.toNat] ++ rest) = c.toNat :: rest from rfl, hkey,
      charOfNat_toNat]
  · by_cases h2 : c.toNat < 0x800
    · have henc : utf8EncodeChar c
          = [0xC0 + c.toNat / 64, 0x80 + c.toNat % 64] := by
        unfold utf8EncodeChar
        rw [if_neg h1, if_pos h2]
      rw [henc]
      have key : ∀ A E1 E2 E3 : List Char,
          (if 0xC0 + c.toNat / 64 < 0x80 then A
           else if 0xC2 ≤ 0xC0 + c.toNat / 64 ∧ 0xC0 + c.toNat / 64 < 0xE0 then
             (if 0x80 ≤ 0x80 + c.toNat % 64 ∧ 0x80 + c.toNat % 64 < 0xC0 then
               Char.ofNat ((0xC0 + c.toNat / 64 - 0xC0) * 64
                   + (0x80 + c.toNat % 64 - 0x80)) :: utf8DecodeF fuel rest
             else Char.ofNat 0xFFFD :: utf8DecodeF fuel rest)
           else if 0xE0 ≤ 0xC0 + c.toNat / 64 ∧ 0xC0 + c.toNat / 64 < 0xF0 then E1
           else if 0xF0 ≤ 0xC0 + c.toNat / 64 ∧ 0xC0 + c.toNat / 64 < 0xF5 then E2
           else E3)
          = Char.ofNat ((0xC0 + c.toNat / 64 - 0xC0) * 64
              + (0x80 + c.toNat % 64 - 0x80)) :: utf8DecodeF fuel rest := by
        intro A E1 E2 E3
        rw [if_neg (by omega), if_pos (by omega), if_pos (by omega)]
      have hkey : utf8DecodeF (fuel + 1)
          ((0xC0 + c.toNat / 64) :: (0x80 + c.toNat % 64) :: rest)
          = Char.ofNat ((0xC0 + c.toNat / 64 - 0xC0) * 64
              + (0x80 + c.toNat % 64 - 0x80)) :: utf8DecodeF fuel rest :=
        key _ _ _ _
      rw [show ([0xC0 + c.toNat / 64, 0x80 + c.toNat % 64] ++ rest)
          = (0xC0 + c.toNat / 64) :: (0x80 + c.toNat % 64) :: rest from rfl]
      rw [hkey]
      have harith : (0xC0 + c.toNat / 64 - 0xC0) * 64
          + (0x80 + c.toNat % 64 - 0x80) = c.toNat := by omega
      rw [harith, charOfNat_toNat]
    · by_cases h3 : c.toNat < 0x10000
      · have henc : utf8EncodeChar c
            = [0xE0 + c.toNat / 4096, 0x80 + c.toNat / 64 % 64,
               0x80 + c.toNat % 64] := by
          unfold utf8EncodeChar
          rw [if_neg h1, if_neg h2, if_pos h3]
        rw [henc]
        have key : ∀ A B E2 E3 : List Char,
            (if 0xE0 + c.toNat / 4096 < 0x80 then A
             else if 0xC2 ≤ 0xE0 + c.toNat / 4096
                 ∧ 0xE0 + c.toNat / 4096 < 0xE0 then B
             else if 0xE0 ≤ 0xE0 + c.toNat / 4096
                 ∧ 0xE0 + c.toNat / 4096 < 0xF0 then
               (if (0x80 ≤ 0x80 + c.toNat / 64 % 64
                     ∧ 0x80 + c.toNat / 64 % 64 < 0xC0)
                   ∧ (0x80 ≤ 0x80 + c.toNat % 64 ∧ 0x80 + c.toNat % 64 < 0xC0)
                   ∧ (0xE0 + c.toNat / 4096 = 0xE0 → 0xA0 ≤ 0x80 + c.toNat / 64 % 64)
                   ∧ (0xE0 + c.toNat / 4096 = 0xED → 0x80 + c.toNat / 64 % 64 < 0xA0)
                then
                 Char.ofNat ((0xE0 + c.toNat / 4096 - 0xE0) * 4096
                     + (0x80 + c.toNat / 64 % 64 - 0x80) * 64
                     + (0x80 + c.toNat % 64 - 0x80)) :: utf8DecodeF fuel rest
               else Char.ofNat 0xFFFD :: utf8DecodeF fuel rest)
             else if 0xF0 ≤ 0xE0 + c.toNat / 4096
                 ∧ 0xE0 + c.toNat / 4096 < 0xF5 then E2
             else E3)
            = Char.ofNat ((0xE0 + c.toNat / 4096 - 0xE0) * 4096
                + (0x80 + c.toNat / 64 % 64 - 0x80) * 64
                + (0x80 + c.toNat % 64 - 0x80)) :: utf8DecodeF fuel rest := by
          intro A B E2 E3
          rw [if_neg (by omega), if_neg (by omega), if_pos (by omega),
            if_pos (by omega)]
        have hkey : utf8DecodeF (fuel + 1)
            ((0xE0 + c.toNat / 4096) :: (0x80 + c.toNat / 64 % 64)
              :: (0x80 + c.toNat % 64) :: rest)
            = Char.ofNat ((0xE0 + c.toNat / 4096 - 0xE0) * 4096
                + (0x80 + c.toNat / 64 % 64 - 0x80) * 64
                + (0x80 + c.toNat % 64 - 0x80)) :: utf8DecodeF fuel rest :=
          key _ _ _ _
        rw [show ([0xE0 + c.toNat / 4096, 0x80 + c.toNat / 64 % 64,
            0x80 + c.toNat % 64] ++ rest)
            = (0xE0 + c.toNat / 4096) :: (0x80 + c.toNat / 64 % 64)
              :: (0x80 + c.toNat % 64) :: rest from rfl]
        rw [hkey]
        have harith : (0xE0 + c.toNat / 4096 - 0xE0) * 4096
            + (0x80 + c.toNat / 64 % 64 - 0x80) * 64
            + (0x80 + c.toNat % 64 - 0x80) = c.toNat := by omega
        rw [harith, charOfNat_toNat]
      · have henc : utf8EncodeChar c
            = [0xF0 + c.toNat / 262144, 0x80 + c.toNat / 4096 % 64,
               0x80 + c.toNat / 64 % 64, 0x80 + c.toNat % 64] := by
          unfold utf8EncodeChar
          rw [if_neg h1, if_neg h2, if_neg h3]
        rw [henc]
        have key : ∀ A B C E3 : List Char,
            (if 0xF0 + c.toNat / 262144 < 0x80 then A
             else if 0xC2 ≤ 0xF0 + c.toNat / 262144
                 ∧ 0xF0 + c.toNat / 262144 < 0xE0 then B
             else if 0xE0 ≤ 0xF0 + c.toNat / 262144
                 ∧ 0xF0 + c.toNat / 262144 < 0xF0 then C
             else if 0xF0 ≤ 0xF0 + c.toNat / 262144
                 ∧ 0xF0 + c.toNat / 262144 < 0xF5 then
               (if (0x80 ≤ 0x80 + c.toNat / 4096 % 64
                     ∧ 0x80 + c.toNat / 4096 % 64 < 0xC0)
                   ∧ (0x80 ≤ 0x80 + c.toNat / 64 % 64
                     ∧ 0x80 + c.toNat / 64 % 64 < 0xC0)
                   ∧ (0x80 ≤ 0x80 + c.toNat % 64 ∧ 0x80 + c.toNat % 64 < 0xC0)
                   ∧ (0xF0 + c.toNat / 262144 = 0xF0
                       → 0x90 ≤ 0x80 + c.toNat / 4096 % 64)
                   ∧ (0xF0 + c.toNat / 262144 = 0xF4
                       → 0x80 + c.toNat / 4096 % 64 < 0x90) then
                 Char.ofNat ((0xF0 + c.toNat / 262144 - 0xF0) * 262144
                     + (0x80 + c.toNat / 4096 % 64 - 0x80) * 4096
                     + (0x80 + c.toNat / 64 % 64 - 0x80) * 64
                     + (0x80 + c.toNat % 64 - 0x80)) :: utf8DecodeF fuel rest
               else Char.ofNat 0xFFFD :: utf8DecodeF fuel rest)
             else E3)
            = Char.ofNat ((0xF0 + c.toNat / 262144 - 0xF0) * 262144
                + (0x80 + c.toNat / 4096 % 64 - 0x80) * 4096
                + (0x80 + c.toNat / 64 % 64 - 0x80) * 64
                + (0x80 + c.toNat % 64 - 0x80)) :: utf8DecodeF fuel rest := by
          intro A B C E3
          rw [if_neg (by omega), if_neg (by omega), if_neg (by omega),
            if_pos (by omega), if_pos (by omega)]
        have hkey : utf8DecodeF (fuel + 1)
            ((0xF0 + c.toNat / 262144) :: (0x80 + c.toNat / 4096 % 64)
              :: (0x80 + c.toNat / 64 % 64) :: (0x80 + c.toNat % 64) :: rest)
            = Char.ofNat ((0xF0 + c.toNat / 262144 - 0xF0) * 262144
                + (0x80 + c.toNat / 4096 % 64 - 0x80) * 4096
                + (0x80 + c.toNat / 64 % 64 - 0x80) * 64
                + (0x80 + c.toNat % 64 - 0x80)) :: utf8DecodeF fuel rest :=
          key _ _ _ _
        rw [show ([0xF0 + c.toNat / 262144, 0x80 + c.toNat / 4096 % 64,
            0x80 + c.toNat / 64 % 64, 0x80 + c.toNat % 64] ++ rest)
            = (0xF0 + c.toNat / 262144) :: (0x80 + c.toNat / 4096 % 64)
              :: (0x80 + c.toNat / 64 % 64) :: (0x80 + c.toNat % 64) :: rest from rfl]
        rw [hkey]
        have harith : (0xF0 + c.toNat / 262144 - 0xF0) * 262144
            + (0x80 + c.toNat / 4096 % 64 - 0x80) * 4096
            + (0x80 + c.toNat / 64 % 64 - 0x80) * 64
            + (0x80 + c.toNat % 64 - 0x80) = c.toNat := by omega
        rw [harith, charOfNat_toNat]

theorem utf8DecodeF_encode (cs : List Char) : ∀ fuel, cs.length < fuel →
    utf8DecodeF fuel (utf8Encode cs) = cs := by
  induction cs with
  | nil =>
    intro fuel hf
    obtain ⟨f, rfl⟩ : ∃ f, fuel = f + 1 := ⟨fuel - 1, by omega⟩
    rfl
  | cons c cs ih =>
    intro fuel hf
    obtain ⟨f, rfl⟩ : ∃ f, fuel = f + 1 := ⟨fuel - 1, by omega⟩
    have henc : utf8Encode (c :: cs) = utf8EncodeChar c ++ utf8Encode cs := rfl
    rw [henc, utf8DecodeF_encodeChar, ih f (by
      simp only [List.length_cons] at hf
      omega)]

theorem utf8Encode_length (cs : List Char) :
    cs.length ≤ (utf8Encode cs).length := by
  induction cs with
  | nil => simp [utf8Encode]
  | cons c cs ih =>
    have henc : utf8Encode (c :: cs) = utf8EncodeChar c ++ utf8Encode cs := rfl
    rw [henc, List.length_append, List.length_cons]
    have h1 : 1 ≤ (utf8EncodeChar c).length := by
      unfold utf8EncodeChar
      simp only []
      split_ifs <;> simp
    omega

theorem utf8Decode_encode (cs : List Char) : utf8Decode (utf8Encode cs) = cs := by
  unfold utf8Decode
  exact utf8DecodeF_encode cs _ (by have := utf8Encode_length cs; omega)

theorem utf8EncodeChar_lt (c : Char) : ∀ b ∈ utf8EncodeChar c, b < 256 := by
  have hval := charValid_ranges c
  intro b hb
  unfold utf8EncodeChar at hb
  by_cases h1 : c.toNat < 0x80
  · rw [if_pos h1] at hb
    simp only [List.mem_singleton] at hb
    omega
  · by_cases h2 : c.toNat < 0x800
    · rw [if_neg h1, if_pos h2] at hb
      simp only [List.mem_cons, List.not_mem_nil, or_false] at hb
      rcases hb with rfl | rfl <;> omega
    · by_cases h3 : c.toNat < 0x10000
      · rw [if_neg h1, if_neg h2, if_pos h3] at hb
        simp only [List.mem_cons, List.not_mem_nil, or_false] at hb
        rcases hb with rfl | rfl | rfl <;> omega
      · rw [if_neg h1, if_neg h2, if_neg h3] at hb
        simp only [List.mem_cons, List.not_mem_nil, or_false] at hb
        rcases hb with rfl | rfl | rfl | rfl <;> omega

theorem utf8Encode_lt (cs : List Char) : ∀ b ∈ utf8Encode cs, b < 256 := by
  induction cs with
  | nil => intro b hb; cases hb
  | cons c cs ih =>
    intro b hb
    have henc : utf8Encode (c :: cs) = utf8EncodeChar c ++ utf8Encode cs := rfl
    rw [henc, List.mem_append] at hb
    rcases hb with hb | hb
    · exact utf8EncodeChar_lt c b hb
    · exact ih b hb

theorem b64Val_b64Char : ∀ s, s < 64 → b64Val (b64Char s) = some s := by decide

theorem b64Val_pad : b64Val '=' = none := rfl

theorem bds_step (s1 s2 s3 s4 : Nat) (X : List Nat) :
    b64DecodeSextets (s1 :: s2 :: s3 :: s4 :: X)
      = (s1 * 4 + s2 / 16) :: (s2 % 16 * 16 + s3 / 4) :: (s3 % 4 * 64 + s4)
        :: b64DecodeSextets X := rfl

theorem b64_roundtrip : ∀ bs : List Nat, (∀ b ∈ bs, b < 256) →
    b64DecodeChars (b64EncodeBytes bs) = bs
  | [], _ => rfl
  | [b1], h => by
    have hb1 : b1 < 256 := h b1 (by simp)
    have hv1 := b64Val_b64Char (b1 / 4) (by omega)
    have hv2 := b64Val_b64Char (b1 % 4 * 16) (by omega)
    show b64DecodeSextets (List.filterMap b64Val
      [b64Char (b1 / 4), b64Char (b1 % 4 * 16), '=', '=']) = [b1]
    rw [List.filterMap_cons, hv1, List.filterMap_cons, hv2,
      List.filterMap_cons, b64Val_pad, List.filterMap_cons, b64Val_pad,
      List.filterMap_nil]
    show [b1 / 4 * 4 + b1 % 4 * 16 / 16] = [b1]
    congr 1
    omega
  | [b1, b2], h => by
    have hb1 : b1 < 256 := h b1 (by simp)
    have hb2 : b2 < 256 := h b2 (by simp)
    have hv1 := b64Val_b64Char (b1 / 4) (by omega)
    have hv2 := b64Val_b64Char (b1 % 4 * 16 + b2 / 16) (by omega)
    have hv3 := b64Val_b64Char (b2 % 16 * 4) (by omega)
    show b64DecodeSextets (List.filterMap b64Val
      [b64Char (b1 / 4), b64Char (b1 % 4 * 16 + b2 / 16),
       b64Char (b2 % 16 * 4), '=']) = [b1, b2]
    rw [List.filterMap_cons, hv1, List.filterMap_cons, hv2,
      List.filterMap_cons, hv3, List.filterMap_cons, b64Val_pad,
      List.filterMap_nil]
    show [b1 / 4 * 4 + (b1 % 4 * 16 + b2 / 16) / 16,
      (b1 % 4 * 16 + b2 / 16) % 16 * 16 + b2 % 16 * 4 / 4] = [b1, b2]
    have e1 : b1 / 4 * 4 + (b1 % 4 * 16 + b2 / 16) / 16 = b1 := by omega
    have e2 : (b1 % 4 * 16 + b2 / 16) % 16 * 16 + b2 % 16 * 4 / 4 = b2 := by
      omega
    rw [e1, e2]
  | b1 :: b2 :: b3 :: rest, h => by
    have hb1 : b1 < 256 := h b1 (by simp)
    have hb2 : b2 < 256 := h b2 (by simp)
    have hb3 : b3 < 256 := h b3 (by simp)
    have hv1 := b64Val_b64Char (b1 / 4) (by omega)
    have hv2 := b64Val_b64Char (b1 % 4 * 16 + b2 / 16) (by omega)
    have hv3 := b64Val_b64Char (b2 % 16 * 4 + b3 / 64) (by omega)
    have hv4 := b64Val_b64Char (b3 % 64) (by omega)
    have hrec := b64_roundtrip rest (fun b hb => h b (by simp [hb]))
    show b64DecodeSextets (List.filterMap b64Val
      (b64Char (b1 / 4) :: b64Char (b1 % 4 * 16 + b2 / 16)
        :: b64Char (b2 % 16 * 4 + b3 / 64) :: b64Char (b3 % 64)
        :: b64EncodeBytes rest)) = b1 :: b2 :: b3 :: rest
    rw [List.filterMap_cons, hv1, List.filterMap_cons, hv2,
      List.filterMap_cons, hv3, List.filterMap_cons, hv4, bds_step]
    have hco : b1 / 4 * 4 + (b1 % 4 * 16 + b2 / 16) / 16 = b1 := by omega
    have hco2 : (b1 % 4 * 16 + b2 / 16) % 16 * 16
        + (b2 % 16 * 4 + b3 / 64) / 4 = b2 := by omega
    have hco3 : (b2 % 16 * 4 + b3 / 64) % 4 * 64 + b3 % 64 = b3 := by omega
    rw [hco, hco2, hco3]
    rw [show b64DecodeSextets (List.filterMap b64Val (b64EncodeBytes rest))
        = b64DecodeChars (b64EncodeBytes rest) from rfl, hrec]

/-- The base64 layer round-trips over UTF-8 text: this is the
Unicode-safety property of the `base64Encode`/`base64Decode` pair. -/
theorem base64_roundtrip (s : String) : base64Decode (base64Encode s) = s := by
  unfold base64Encode base64Decode
  rw [show (String.mk (b64EncodeBytes (utf8Encode s.data))).data
      = b64EncodeBytes (utf8Encode s.data) from rfl]
  rw [b64_roundtrip (utf8Encode s.data) (utf8Encode_lt s.data),
    utf8Decode_encode]

theorem offerCheckAmount_true_iff (o : PaymentHandlerOptions)
    (r : MidenPaymentRequirements) :
    offerCheckAmount o r = .ok true ↔ AmountOk o r.amount := by
  unfold offerCheckAmount AmountOk
  cases h : maxPaymentActive o with
  | none => simp
  | some m =>
    cases ha : strToBigInt r.amount with
    | none => simp [ha]
    | some a =>
      by_cases hgt : a > m
      · simp only [hgt, if_pos]
        constructor
        · intro hfalse; cases hfalse
        · intro hall
          obtain ⟨a', ha', hle⟩ := hall m rfl
          cases ha'
          exact absurd hgt (by omega)
      · simp only [hgt, if_neg]
        constructor
        · intro _ m' hm'
          cases hm'
          exact ⟨a, rfl, by omega⟩
        · intro _; rfl

theorem offerCheckFaucet_true_iff (o : PaymentHandlerOptions)
    (r : MidenPaymentRequirements) :
    offerCheckFaucet o r = .ok true ↔
      faucetAllowed o r.asset ∧ AmountOk o r.amount := by
  unfold offerCheckFaucet faucetAllowed
  cases h : activeList o.allowedFaucets with
  | none => simp [offerCheckAmount_true_iff]
  | some fs =>
    by_cases hm : r.asset ∈ fs
    · simp [hm, offerCheckAmount_true_iff]
    · simp [hm]

theorem offerCheck_true_iff (o : PaymentHandlerOptions)
    (r : MidenPaymentRequirements) :
    offerCheck o r = .ok true ↔
      r.scheme = "exact" ∧ networkAllowed o r.network ∧
      faucetAllowed o r.asset ∧ AmountOk o r.amount := by
  unfold offerCheck networkAllowed
  by_cases hs : r.scheme = "exact"
  · cases h : activeList o.allowedNetworks with
    | none => simp [hs, offerCheckFaucet_true_iff, and_assoc]
    | some nets =>
      by_cases hn : r.network ∈ nets
      · simp [hs, hn, offerCheckFaucet_true_iff, and_assoc]
      · simp [hs, hn]
  · simp [hs]

/-! ## Claim C1 — first-match selection

The claim as frozen fails on the code: when a positive `maxPayment` bound
is active and an offer reaching the amount filter has a non-numeric
`amount`, `BigInt(req.amount)` throws, so `selectRequirement` neither
returns an offer nor `none` (see `selectRequirement_crash_counterexample`).
Amended claim: *provided no inspected amount string makes the filter throw
(equivalently, when a positive `maxPayment` bound is active, every offer
that reaches the amount filter has a numeric amount), `select` returns the
first offer in the given order that passes all filters, and `none` exactly
when no offer passes; it is deterministic and first-match: swapping two
offers that both pass changes which one is chosen.* -/

/-- C1 (amended): under the no-`SyntaxError` proviso, `selectRequirement`
returns exactly the first offer passing all filters (`List.find?` over the
filter predicate, `none` when no offer passes), and it is first-match: for
any two offers that both pass, whichever comes first is chosen. -/
theorem selectRequirement_first_match (o : PaymentHandlerOptions)
    (offers : List MidenPaymentRequirements)
    (hsafe : ∀ r ∈ offers, offerCheck o r ≠ .error ()) :
    selectRequirement o offers = .ok (offers.find? (offerPasses o)) ∧
    ∀ a b rest, offerPasses o a = true → offerPasses o b = true →
      selectRequirement o (a :: b :: rest) = .ok (some a) ∧
      selectRequirement o (b :: a :: rest) = .ok (some b) := by
  constructor
  · induction offers with
    | nil => rfl
    | cons r rest ih =>
      have hr : offerCheck o r ≠ .error () := hsafe r (List.mem_cons_self r rest)
      have hrest := ih (fun x hx => hsafe x (List.mem_cons_of_mem r hx))
      cases hc : offerCheck o r with
      | error e => cases e; exact absurd hc hr
      | ok b =>
        cases b
        · simpa [selectRequirement, hc, offerPasses] using hrest
        · simp [selectRequirement, hc, offerPasses]
  · intro a b rest ha hb
    have hca : offerCheck o a = .ok true := by
      unfold offerPasses at ha
      split at ha
      · assumption
      · cases ha
    have hcb : offerCheck o b = .ok true := by
      unfold offerPasses at hb
      split at hb
      · assumption
      · cases hb
    exact ⟨by simp [selectRequirement, hca], by simp [selectRequirement, hcb]⟩

/-- C1 witness: on a concrete offer list whose first offer fails the scheme
filter and whose second passes everything, the selector picks the second. -/
theorem selectRequirement_first_match_witness :
    (∀ r ∈ [c1OfferBad, c1OfferGood], offerCheck c1Opts r ≠ .error ()) ∧
    selectRequirement c1Opts [c1OfferBad, c1OfferGood] = .ok (some c1OfferGood) := by
  refine ⟨by decide, ?_⟩
  rw [(selectRequirement_first_match c1Opts [c1OfferBad, c1OfferGood] (by decide)).1]
  rfl

/-- C1 counterexample: with `maxPayment = 10` active and a single offer whose
amount is `"not-a-number"`, the code throws (`BigInt` `SyntaxError`, modelled
`.error ()`) instead of returning an offer or `none`, refuting the claim's
"returns none exactly when no offer passes all filters". -/
theorem selectRequirement_crash_counterexample :
    selectRequirement boundedOpts [badAmountOffer] = .error () ∧
    ∀ res, selectRequirement boundedOpts [badAmountOffer] ≠ .ok res := by
  refine ⟨rfl, fun res h => ?_⟩
  rw [show selectRequirement boundedOpts [badAmountOffer] = .error () from rfl] at h
  cases h

/-- C3 (code bug, evaluated at the failing input): with a positive
`maxPayment` bound, a non-numeric amount makes `selectRequirement` throw
(`.error ()`) instead of skipping the offer; with no bound active the same
offer is accepted untouched (the amount is never inspected). -/
theorem selectRequirement_malformed_amount_eval :
    selectRequirement boundedOpts [badAmountOffer] = .error () ∧
    selectRequirement unboundedOpts [badAmountOffer] = .ok (some badAmountOffer) :=
  ⟨rfl, rfl⟩

/-! ## Claim C9 — constraint monotonicity

"Tightening" is read over the constraint's *denotation*, following the
spec's own data model ("empty means any"): the set of admitted values
shrinks pointwise.  For `maxPayment`, per the claim: a smaller positive
bound, or a positive bound where none was active. -/

theorem maxPaymentActive_congr {c c' : PaymentHandlerOptions}
    (h : c'.maxPayment = c.maxPayment) :
    maxPaymentActive c' = maxPaymentActive c := by
  unfold maxPaymentActive; rw [h]

theorem networkAllowed_congr {c c' : PaymentHandlerOptions}
    (h : c'.allowedNetworks = c.allowedNetworks) (s : String) :
    networkAllowed c' s ↔ networkAllowed c s := by
  unfold networkAllowed; rw [h]

theorem faucetAllowed_congr {c c' : PaymentHandlerOptions}
    (h : c'.allowedFaucets = c.allowedFaucets) (s : String) :
    faucetAllowed c' s ↔ faucetAllowed c s := by
  unfold faucetAllowed; rw [h]

/-- C9: tightening any single constraint dimension never turns an offer the
filters rejected into an accepted one. -/
theorem offerCheck_monotone (c c' : PaymentHandlerOptions)
    (r : MidenPaymentRequirements)
    (ht : TightensMaxPayment c c' ∨ TightensFaucets c c' ∨ TightensNetworks c c')
    (hrej : offerCheck c r = .ok false) :
    offerCheck c' r ≠ .ok true := by
  intro hacc
  rw [offerCheck_true_iff] at hacc
  obtain ⟨hs, hn, hf, ha⟩ := hacc
  have hthis : offerCheck c r = .ok true := by
    rw [offerCheck_true_iff]
    rcases ht with ⟨hfe, hne, m', hm', hc⟩ | ⟨hmp, hne, himp⟩ | ⟨hmp, hfe, himp⟩
    · refine ⟨hs, (networkAllowed_congr hne r.network).mp hn,
        (faucetAllowed_congr hfe r.asset).mp hf, ?_⟩
      intro m hm
      rcases hc with hnone | ⟨m0, hm0, hlt⟩
      · rw [hnone] at hm; cases hm
      · rw [hm0] at hm
        cases hm
        obtain ⟨a, hpa, hle⟩ := ha m' hm'
        exact ⟨a, hpa, by omega⟩
    · refine ⟨hs, (networkAllowed_congr hne r.network).mp hn, himp r.asset hf, ?_⟩
      intro m hm
      rw [← maxPaymentActive_congr hmp] at hm
      exact ha m hm
    · refine ⟨hs, himp r.network hn, (faucetAllowed_congr hfe r.asset).mp hf, ?_⟩
      intro m hm
      rw [← maxPaymentActive_congr hmp] at hm
      exact ha m hm
  rw [hthis] at hrej
  cases hrej

/-- C9 witness: activating a faucet allowlist (a tightening) keeps an offer
that was rejected for exceeding the bound from becoming accepted. -/
theorem offerCheck_monotone_witness :
    TightensFaucets c9Base c9Tight ∧
    offerCheck c9Base c9Offer = .ok false ∧
    offerCheck c9Tight c9Offer ≠ .ok true := by
  have hti : TightensFaucets c9Base c9Tight :=
    ⟨rfl, rfl, fun s _ => trivial⟩
  exact ⟨hti, rfl, offerCheck_monotone c9Base c9Tight c9Offer (Or.inr (Or.inl hti)) rfl⟩

theorem getStr_none {kvs : List (String × Json)} {k : String}
    (h : jGet kvs k = none) : getStr kvs k = none := by
  unfold getStr; rw [h]

theorem parseReqList_none {items : List Json} {rj : Json}
    (hm : rj ∈ items) (h : reqParse rj = none) : parseReqList items = none := by
  induction items with
  | nil => cases hm
  | cons x xs ih =>
    rcases List.mem_cons.mp hm with rfl | hm'
    · simp [parseReqList, h]
    · cases hx : reqParse x <;> simp [parseReqList, hx, ih hm']

/-! ## Claim C2 — codec round trip

`decodePaymentHeader (encodePaymentHeader p)` parses back exactly the
JSON view of `p`: the decoded JavaScript object has the same fields, in
the same order, with the same values as `p` — deep structural equality
of the two objects is equality of their JSON views.  The statement is
universally quantified over payloads, hence covers amount strings whose
decimal value exceeds 2^63 (amounts travel as strings, compared
verbatim) and arbitrary Unicode in every string field (the printer
escapes and the base64 layer round-trips all of UTF-8, proved in
`utf8Decode_encode`/`base64_roundtrip`). -/

/-- C2: for every structurally valid payment payload `p`, decoding the
encoded header succeeds and reproduces `p` exactly (as its JSON view),
including amounts beyond 2^63 and arbitrary Unicode string fields. -/
theorem decodePaymentHeader_encodePaymentHeader (p : V2PaymentPayload) :
    decodePaymentHeader (encodePaymentHeader p) = some (v2ToJson p) := by
  unfold decodePaymentHeader encodePaymentHeader
  rw [base64_roundtrip, jsonParse_stringify]

/-! ## Claim C6 — parse failure modes (corrected)

The claim lists `maxTimeoutSeconds` among the required fields of a
requirement record, but the schema declares it
`maxTimeoutSeconds: z.number().optional()` (payment-handler.ts:29), so
a record without it still parses; every other part of the claim holds.
The counterexample exhibits a 402 body whose only requirement record
lacks `maxTimeoutSeconds` yet parses to `some`. -/

/-- C6 (amended): `parsePaymentRequired` never raises and returns
`none` for every unusable input — any status other than 402 (for every
body: the body is never inspected), a body that is not valid JSON, a
body rejected by the schema, and a body whose `x402Version` is not 2 —
and returns the parsed value otherwise.  A requirement record missing
any of the required fields `scheme`, `network`, `amount`, `payTo`, or
`asset` fails the schema, and one failing record fails the whole body;
`maxTimeoutSeconds`, however, is optional, not required as claimed. -/
theorem parsePaymentRequired_cases (status : Nat) (body : String) :
    (status ≠ 402 → parsePaymentRequired status body = none) ∧
    (jsonParse body = none → parsePaymentRequired status body = none) ∧
    (∀ j, jsonParse body = some j → schemaParse j = none →
      parsePaymentRequired status body = none) ∧
    (∀ j pr, jsonParse body = some j → schemaParse j = some pr →
      pr.x402Version ≠ 2 → parsePaymentRequired status body = none) ∧
    (∀ j pr, status = 402 → jsonParse body = some j → schemaParse j = some pr →
      pr.x402Version = 2 → parsePaymentRequired status body = some pr) ∧
    (∀ kvs, (jGet kvs "scheme" = none ∨ jGet kvs "network" = none ∨
             jGet kvs "amount" = none ∨ jGet kvs "payTo" = none ∨
             jGet kvs "asset" = none) → reqParse (Json.obj kvs) = none) ∧
    (∀ kvs items rj, jGet kvs "accepts" = some (Json.arr items) → rj ∈ items →
      reqParse rj = none → schemaParse (Json.obj kvs) = none) := by
  refine ⟨?_, ?_, ?_, ?_, ?_, ?_, ?_⟩
  · intro h; unfold parsePaymentRequired; rw [if_pos h]
  · intro h
    unfold parsePaymentRequired
    by_cases hs : status ≠ 402
    · rw [if_pos hs]
    · rw [if_neg hs, h]
  · intro j hj hsp
    unfold parsePaymentRequired
    by_cases hs : status ≠ 402
    · rw [if_pos hs]
    · rw [if_neg hs, hj]
      show (match schemaParse j with
            | none => none
            | some pr => if pr.x402Version ≠ 2 then none else some pr) = none
      rw [hsp]
  · intro j pr hj hsp hv
    unfold parsePaymentRequired
    by_cases hs : status ≠ 402
    · rw [if_pos hs]
    · rw [if_neg hs, hj]
      show (match schemaParse j with
            | none => none
            | some pr => if pr.x402Version ≠ 2 then none else some pr) = none
      rw [hsp]; exact if_pos hv
  · intro j pr hs hj hsp hv
    subst hs
    unfold parsePaymentRequired
    rw [if_neg (by omega), hj]
    show (match schemaParse j with
          | none => none
          | some pr => if pr.x402Version ≠ 2 then none else some pr) = some pr
    rw [hsp]
    exact if_neg (fun hne => hne hv)
  · intro kvs hd
    rcases hd with h | h | h | h | h
    · simp only [reqParse, getStr_none h, Option.none_bind]
    · cases h1 : getStr kvs "scheme" <;>
        simp only [reqParse, h1, getStr_none h, Option.none_bind, Option.some_bind]
    · cases h1 : getStr kvs "scheme" <;> cases h2 : getStr kvs "network" <;>
        simp only [reqParse, h1, h2, getStr_none h, Option.none_bind, Option.some_bind]
    · cases h1 : getStr kvs "scheme" <;> cases h2 : getStr kvs "network" <;>
        cases h3 : getStr kvs "amount" <;>
        simp only [reqParse, h1, h2, h3, getStr_none h, Option.none_bind, Option.some_bind]
    · cases h1 : getStr kvs "scheme" <;> cases h2 : getStr kvs "network" <;>
        cases h3 : getStr kvs "amount" <;> cases h4 : getStr kvs "payTo" <;>
        simp only [reqParse, h1, h2, h3, h4, getStr_none h, Option.none_bind,
          Option.some_bind]
  · intro kvs items rj hacc hm hr
    have hlist := parseReqList_none hm hr
    cases hv : getNum kvs "x402Version" with
    | none => simp only [schemaParse, hv, Option.none_bind]
    | some ver =>
      simp only [schemaParse, hv, Option.some_bind]
      have harr : getArr kvs "accepts" = some items := by unfold getArr; rw [hacc]
      rw [harr]
      simp only [Option.some_bind, hlist, Option.none_bind]

set_option maxRecDepth 8192 in
/-- C6 counterexample: a 402 body whose requirement record has no
`maxTimeoutSeconds` field parses to `some`, not `none` as the claim
("missing required fields including maxTimeoutSeconds") requires. -/
theorem parsePaymentRequired_maxTimeout_counterexample :
    parsePaymentRequired 402 c6Body = some ⟨2, [c6Req], none, none⟩ ∧
    c6Req.maxTimeoutSeconds = none := ⟨rfl, rfl⟩

/-- C6 witness: the amended theorem applied at concrete inputs — a
non-402 status, a successful parse, and a record missing `network`. -/
theorem parsePaymentRequired_cases_witness :
    parsePaymentRequired 200 c6WitBody = none ∧
    parsePaymentRequired 402 c6WitBody = some ⟨2, [], none, none⟩ ∧
    reqParse (Json.obj [("scheme", Json.str "exact")]) = none := by
  refine ⟨?_, ?_, ?_⟩
  · exact (parsePaymentRequired_cases 200 c6WitBody).1 (by decide)
  · exact (parsePaymentRequired_cases 402 c6WitBody).2.2.2.2.1
      (Json.obj [("x402Version", Json.num 2), ("accepts", Json.arr [])])
      ⟨2, [], none, none⟩ rfl rfl rfl rfl
  · exact (parsePaymentRequired_cases 402 c6WitBody).2.2.2.2.2.1
      [("scheme", Json.str "exact")] (Or.inr (Or.inl rfl))

theorem createPayment_calls (wallet : WalletFn) (acct : String)
    (req : MidenPaymentRequirements) (res : Option ResourceInfo) :
    (strToBigInt req.amount = none →
      createPayment wallet acct req res = ([], .error .syntaxError)) ∧
    (∀ a, strToBigInt req.amount = some a →
      (createPayment wallet acct req res).1 = [⟨req.payTo, req.asset, a, "public"⟩]) := by
  constructor
  · intro h; simp only [createPayment, h]
  · intro a h
    simp only [createPayment, h]
    cases wallet req.payTo req.asset a "public" <;> simp

theorem handle_trace_shape (wallet : WalletFn) (acct : String)
    (o : PaymentHandlerOptions) (status : Nat) (body : String) :
    (handlePaymentRequired wallet acct o status body).1 = [] ∨
    (∃ pr req a, parsePaymentRequired status body = some pr ∧
      selectRequirement o pr.accepts = .ok (some req) ∧
      strToBigInt req.amount = some a ∧
      (handlePaymentRequired wallet acct o status body).1 =
        [⟨req.payTo, req.asset, a, "public"⟩]) := by
  cases hp : parsePaymentRequired status body with
  | none => left; simp only [handlePaymentRequired, hp]
  | some pr =>
    cases hsel : selectRequirement o pr.accepts with
    | error e => left; simp only [handlePaymentRequired, hp, hsel]
    | ok oreq =>
      cases oreq with
      | none => left; simp only [handlePaymentRequired, hp, hsel]
      | some req =>
        cases ha : strToBigInt req.amount with
        | none =>
          left
          have hc := (createPayment_calls wallet acct req pr.resource).1 ha
          simp only [handlePaymentRequired, hp, hsel, hc]
        | some a =>
          right
          refine ⟨pr, req, a, rfl, hsel, ha, ?_⟩
          have hc := (createPayment_calls wallet acct req pr.resource).2 a ha
          cases hcp : createPayment wallet acct req pr.resource with
          | mk calls r =>
            rw [hcp] at hc
            cases r <;> simp only [handlePaymentRequired, hp, hsel, hcp] <;> exact hc

/-! ## Claim C5 — wallet invocation trace (corrected)

The 0-or-1 discipline and the exact argument tuple
`(payTo, asset, BigInt(amount), "public")` hold, but the claimed
dichotomy — 0 calls exactly when Parse or Select yields none, 1 call
otherwise — fails: when Parse and Select both succeed and no
`maxPayment` bound made the selector inspect the amount, `createPayment`
still evaluates `BigInt(requirements.amount)`, and a malformed amount
throws before the wallet is reached, giving 0 calls (counterexample
below). -/

/-- C5 (amended): per `handlePaymentRequired` run the wallet is invoked
at most once and only ever with note type "public"; 0 calls when Parse
or Select yields none; exactly one call with
`(payTo, asset, BigInt(amount), "public")` of the selected requirement
when its amount parses as a bigint; and 0 calls (with an uncaught
`SyntaxError`) when Parse and Select succeed but the amount does not
parse. -/
theorem handlePaymentRequired_wallet_trace (wallet : WalletFn) (acct : String)
    (o : PaymentHandlerOptions) (status : Nat) (body : String) :
    ((handlePaymentRequired wallet acct o status body).1.length ≤ 1) ∧
    (∀ c ∈ (handlePaymentRequired wallet acct o status body).1, c.noteType = "public") ∧
    (parsePaymentRequired status body = none →
      (handlePaymentRequired wallet acct o status body).1 = []) ∧
    (∀ pr, parsePaymentRequired status body = some pr →
      selectRequirement o pr.accepts = .ok none →
      (handlePaymentRequired wallet acct o status body).1 = []) ∧
    (∀ pr req a, parsePaymentRequired status body = some pr →
      selectRequirement o pr.accepts = .ok (some req) →
      strToBigInt req.amount = some a →
      (handlePaymentRequired wallet acct o status body).1 =
        [⟨req.payTo, req.asset, a, "public"⟩]) ∧
    (∀ pr req, parsePaymentRequired status body = some pr →
      selectRequirement o pr.accepts = .ok (some req) →
      strToBigInt req.amount = none →
      handlePaymentRequired wallet acct o status body = ([], .error .syntaxError)) := by
  refine ⟨?_, ?_, ?_, ?_, ?_, ?_⟩
  · rcases handle_trace_shape wallet acct o status body with h | ⟨pr, req, a, _, _, _, h⟩ <;>
      rw [h] <;> simp
  · rcases handle_trace_shape wallet acct o status body with h | ⟨pr, req, a, _, _, _, h⟩ <;>
      rw [h]
    · intro c hc; cases hc
    · intro c hc
      rcases List.mem_singleton.mp hc with rfl
      rfl
  · intro hp; simp only [handlePaymentRequired, hp]
  · intro pr hp hsel; simp only [handlePaymentRequired, hp, hsel]
  · intro pr req a hp hsel ha
    have hc := (createPayment_calls wallet acct req pr.resource).2 a ha
    cases hcp : createPayment wallet acct req pr.resource with
    | mk calls r =>
      rw [hcp] at hc
      cases r <;> simp only [handlePaymentRequired, hp, hsel, hcp] <;> exact hc
  · intro pr req hp hsel ha
    have hc := (createPayment_calls wallet acct req pr.resource).1 ha
    simp only [handlePaymentRequired, hp, hsel, hc]

set_option maxRecDepth 8192 in
/-- C5 witness: a concrete successful negotiation makes exactly one
wallet call `(0xrecipient, 0xfaucet, 500, "public")`. -/
theorem handlePaymentRequired_wallet_trace_witness :
    (handlePaymentRequired c5Wallet "0xagent" unboundedOpts 402 c5Body).1 =
      [⟨"0xrecipient", "0xfaucet", 500, "public"⟩] :=
  (handlePaymentRequired_wallet_trace c5Wallet "0xagent" unboundedOpts 402 c5Body).2.2.2.2.1
    ⟨2, [c5Req], none, none⟩ c5Req 500 rfl rfl rfl

set_option maxRecDepth 8192 in
/-- C5 counterexample: Parse and Select both succeed, yet the wallet is
invoked 0 times — not once as claimed — because `BigInt("not-a-number")`
throws inside `createPayment` before the wallet call. -/
theorem handlePaymentRequired_zero_calls_counterexample :
    parsePaymentRequired 402 c5BadBody = some ⟨2, [c5BadReq], none, none⟩ ∧
    selectRequirement unboundedOpts [c5BadReq] = Except.ok (some c5BadReq) ∧
    handlePaymentRequired c5Wallet "0xagent" unboundedOpts 402 c5BadBody =
      ([], Except.error HandlerErr.syntaxError) := ⟨rfl, rfl, rfl⟩

theorem handle_calls_length (wallet : WalletFn) (acct : String)
    (o : PaymentHandlerOptions) (status : Nat) (body : String) :
    (handlePaymentRequired wallet acct o status body).1.length ≤ 1 := by
  rcases handle_trace_shape wallet acct o status body with h | ⟨_, _, _, _, _, _, h⟩ <;>
    rw [h] <;> simp

/-! ## Claim C7 — request discipline of `midenFetch` -/

/-- C7: `midenFetch` issues at most two requests and at most one wallet
payment; when negotiation succeeds the second request carries the
negotiated `Payment` header and its response is returned as the final
result regardless of its status — for every `resp2`, including a second
402, the result is `.retried resp2`, unchanged, with no further
negotiation (the request trace stays at two). -/
theorem midenFetch_request_discipline {α : Type} (wallet : WalletFn) (acct : String)
    (o : MidenFetchOptions α) (resp1 resp2 : Resp) :
    ((midenFetch wallet acct o resp1 resp2).requests.length ≤ 2) ∧
    ((midenFetch wallet acct o resp1 resp2).walletCalls.length ≤ 1) ∧
    (∀ calls res,
      handlePaymentRequired wallet acct (handlerOptions o) resp1.status resp1.body =
        (calls, .ok (some res)) →
      resp1.status = 402 → o.dryRun = false →
      (midenFetch wallet acct o resp1 resp2).requests =
        [⟨o.rest, none⟩, ⟨o.rest, some res.paymentHeader⟩] ∧
      (midenFetch wallet acct o resp1 resp2).result = .ok (.retried resp2)) := by
  refine ⟨?_, ?_, ?_⟩
  · unfold midenFetch
    by_cases h1 : resp1.status ≠ 402
    · rw [if_pos h1]; simp
    · rw [if_neg h1]
      by_cases h2 : o.dryRun
      · rw [if_pos h2]; simp
      · rw [if_neg h2]
        cases hcp : handlePaymentRequired wallet acct (handlerOptions o) resp1.status resp1.body with
        | mk calls r =>
          cases r with
          | error e => simp
          | ok v => cases v <;> simp
  · unfold midenFetch
    have hlen := handle_calls_length wallet acct (handlerOptions o) resp1.status resp1.body
    by_cases h1 : resp1.status ≠ 402
    · rw [if_pos h1]; simp
    · rw [if_neg h1]
      by_cases h2 : o.dryRun
      · rw [if_pos h2]; simp
      · rw [if_neg h2]
        cases hcp : handlePaymentRequired wallet acct (handlerOptions o) resp1.status resp1.body with
        | mk calls r =>
          rw [hcp] at hlen
          cases r with
          | error e => simpa using hlen
          | ok v => cases v <;> simpa using hlen
  · intro calls res hcp h1 h2
    unfold midenFetch
    rw [if_neg (not_not_intro h1), if_neg (by rw [h2]; exact Bool.false_ne_true), hcp]
    exact ⟨rfl, rfl⟩

/-! ## Claim C4 — failed-negotiation response (corrected)

`midenFetch` does synthesize the claimed 402 response, but
`midenFetchWithCallback` does not: at fetch.ts:160 it returns the
original response object — whose body was already consumed during
parsing — with no synthetic replacement. -/

/-- C4 (amended): when the first response is 402, dryRun is unset and
negotiation yields none, `midenFetch` returns a fresh 402 response whose
body is exactly `{"error":"No compatible payment scheme found","x402Version":2}`
and no error escapes; `midenFetchWithCallback`, however, returns the
original (body-consumed) response and never a synthetic one, and its
callback is not invoked. -/
theorem fetch_no_scheme_responses {α : Type} (wallet : WalletFn) (acct : String)
    (o : MidenFetchOptions α) (resp1 resp2 : Resp) :
    (∀ calls, resp1.status = 402 → o.dryRun = false →
      handlePaymentRequired wallet acct (handlerOptions o) resp1.status resp1.body =
        (calls, .ok none) →
      (midenFetch wallet acct o resp1 resp2).result =
        .ok (.synthetic ⟨402, syntheticBody⟩) ∧
      (midenFetchWithCallback wallet acct o resp1 resp2).1.result = .ok .original ∧
      (midenFetchWithCallback wallet acct o resp1 resp2).2 = []) ∧
    syntheticBody =
      "\x7b\"error\":\"No compatible payment scheme found\",\"x402Version\":2\x7d" := by
  constructor
  · intro calls h1 h2 hcp
    have hguard : ¬(resp1.status ≠ 402 ∨ o.dryRun = true) := by
      rw [h2]; intro hor
      rcases hor with h | h
      · exact h h1
      · exact Bool.false_ne_true h
    refine ⟨?_, ?_, ?_⟩
    · unfold midenFetch
      rw [if_neg (not_not_intro h1), if_neg (by rw [h2]; exact Bool.false_ne_true), hcp]
    · unfold midenFetchWithCallback
      rw [if_neg hguard, hcp]
    · unfold midenFetchWithCallback
      rw [if_neg hguard, hcp]
  · rfl

/-! ## Claim C8 — passthrough and dry-run frame conditions -/

/-- C8: for both fetch variants, a non-402 first response, or a 402
first response under dryRun, is returned unmodified after exactly one
request, with no wallet invocation (and no callback invocation). -/
theorem fetch_passthrough {α : Type} (wallet : WalletFn) (acct : String)
    (o : MidenFetchOptions α) (resp1 resp2 : Resp) :
    (resp1.status ≠ 402 →
      midenFetch wallet acct o resp1 resp2 = ⟨[⟨o.rest, none⟩], [], .ok .original⟩ ∧
      midenFetchWithCallback wallet acct o resp1 resp2 =
        (⟨[⟨o.rest, none⟩], [], .ok .original⟩, [])) ∧
    (resp1.status = 402 → o.dryRun = true →
      midenFetch wallet acct o resp1 resp2 = ⟨[⟨o.rest, none⟩], [], .ok .original⟩ ∧
      midenFetchWithCallback wallet acct o resp1 resp2 =
        (⟨[⟨o.rest, none⟩], [], .ok .original⟩, [])) := by
  constructor
  · intro h1
    constructor
    · unfold midenFetch; rw [if_pos h1]
    · unfold midenFetchWithCallback; rw [if_pos (Or.inl h1)]
  · intro h1 h2
    constructor
    · unfold midenFetch; rw [if_neg (not_not_intro h1), if_pos h2]
    · unfold midenFetchWithCallback; rw [if_pos (Or.inr h2)]

set_option maxRecDepth 8192 in
/-- C7 witness: a concrete successful negotiation issues exactly the two
requests and returns the second response even though it is again 402. -/
theorem midenFetch_request_discipline_witness :
    (midenFetch c5Wallet "0xagent" plainOpts ⟨402, c5Body⟩ ⟨402, "pay again"⟩).requests =
      [⟨(), none⟩, ⟨(), some c7Res.paymentHeader⟩] ∧
    (midenFetch c5Wallet "0xagent" plainOpts ⟨402, c5Body⟩ ⟨402, "pay again"⟩).result =
      Except.ok (FetchResult.retried ⟨402, "pay again"⟩) :=
  (midenFetch_request_discipline c5Wallet "0xagent" plainOpts ⟨402, c5Body⟩
      ⟨402, "pay again"⟩).2.2
    [⟨"0xrecipient", "0xfaucet", 500, "public"⟩] c7Res rfl rfl rfl

set_option maxRecDepth 8192 in
/-- C4 witness: on an unparseable 402 body, `midenFetch` returns the
synthetic 402 and `midenFetchWithCallback` the original response. -/
theorem fetch_no_scheme_responses_witness :
    (midenFetch c5Wallet "0xagent" plainOpts ⟨402, "not json"⟩ ⟨200, "x"⟩).result =
      Except.ok (FetchResult.synthetic ⟨402, syntheticBody⟩) ∧
    (midenFetchWithCallback c5Wallet "0xagent" plainOpts ⟨402, "not json"⟩ ⟨200, "x"⟩).1.result =
      Except.ok FetchResult.original :=
  ⟨((fetch_no_scheme_responses c5Wallet "0xagent" plainOpts ⟨402, "not json"⟩
      ⟨200, "x"⟩).1 [] rfl rfl rfl).1,
   ((fetch_no_scheme_responses c5Wallet "0xagent" plainOpts ⟨402, "not json"⟩
      ⟨200, "x"⟩).1 [] rfl rfl rfl).2.1⟩

/-- C4 counterexample: with an unparseable 402 body,
`midenFetchWithCallback` returns the original response, which is not the
synthesized response the claim requires for both variants. -/
theorem midenFetchWithCallback_original_counterexample :
    (midenFetchWithCallback c5Wallet "0xagent" plainOpts ⟨402, "not json"⟩ ⟨200, "x"⟩).1.result =
      Except.ok FetchResult.original ∧
    (∀ r : Resp,
      (Except.ok FetchResult.original : Except HandlerErr FetchResult) ≠
        Except.ok (FetchResult.synthetic r)) := by
  refine ⟨rfl, ?_⟩
  intro r h
  cases h

/-- C8 witness: concrete passthrough (status 200) and dry-run (402)
runs for both variants. -/
theorem fetch_passthrough_witness :
    midenFetch c5Wallet "0xagent" plainOpts ⟨200, "ok"⟩ ⟨200, "x"⟩ =
      ⟨[⟨(), none⟩], [], Except.ok FetchResult.original⟩ ∧
    midenFetch c5Wallet "0xagent" dryOpts ⟨402, "pay me"⟩ ⟨200, "x"⟩ =
      ⟨[⟨(), none⟩], [], Except.ok FetchResult.original⟩ ∧
    midenFetchWithCallback c5Wallet "0xagent" dryOpts ⟨402, "pay me"⟩ ⟨200, "x"⟩ =
      (⟨[⟨(), none⟩], [], Except.ok FetchResult.original⟩, []) := by
  refine ⟨?_, ?_, ?_⟩
  · exact ((fetch_passthrough c5Wallet "0xagent" plainOpts ⟨200, "ok"⟩ ⟨200, "x"⟩).1
      (by decide)).1
  · exact ((fetch_passthrough c5Wallet "0xagent" dryOpts ⟨402, "pay me"⟩ ⟨200, "x"⟩).2
      rfl rfl).1
  · exact ((fetch_passthrough c5Wallet "0xagent" dryOpts ⟨402, "pay me"⟩ ⟨200, "x"⟩).2
      rfl rfl).2

/-! ## Claim C10 — wallet input validation (corrected)

Both primitives do validate before any client interaction, but the
checks are ordered: non-positive amounts throw "Amount must be
positive" even when an id is also malformed, so the hex clause of the
claim only holds for positive amounts (counterexample below). -/

/-- C10 (amended): for both `sendPayment` and `createP2IDProof`, a call
with `amount <= 0` throws "Amount must be positive"; a call with
positive amount whose `recipientId` fails the hex pattern throws
"Invalid hex format for recipientId"; with positive amount and valid
`recipientId`, a `faucetId` failing the pattern throws "Invalid hex
format for faucetId".  In every such case the client trace is empty: no
transaction request is built, nothing is executed, proved, or
submitted, and the wallet state is unchanged. -/
theorem wallet_validation (fromHexOk : String → Bool)
    (submitRes : Except String String) (execRes : Except String Unit)
    (proveRes : Except String ProofOut)
    (acct recipientId faucetId : String) (amount : Int) (noteType : String) :
    (amount ≤ 0 →
      sendPayment fromHexOk submitRes acct recipientId faucetId amount noteType =
        ([], .error "Amount must be positive") ∧
      createP2IDProof fromHexOk execRes proveRes acct recipientId faucetId amount noteType =
        ([], .error "Amount must be positive")) ∧
    (0 < amount → hexTest recipientId = false →
      sendPayment fromHexOk submitRes acct recipientId faucetId amount noteType =
        ([], .error "Invalid hex format for recipientId") ∧
      createP2IDProof fromHexOk execRes proveRes acct recipientId faucetId amount noteType =
        ([], .error "Invalid hex format for recipientId")) ∧
    (0 < amount → hexTest recipientId = true → hexTest faucetId = false →
      sendPayment fromHexOk submitRes acct recipientId faucetId amount noteType =
        ([], .error "Invalid hex format for faucetId") ∧
      createP2IDProof fromHexOk execRes proveRes acct recipientId faucetId amount noteType =
        ([], .error "Invalid hex format for faucetId")) := by
  refine ⟨?_, ?_, ?_⟩
  · intro h
    constructor
    · unfold sendPayment; rw [if_pos h]
    · unfold createP2IDProof; rw [if_pos h]
  · intro h hr
    have hn : ¬amount ≤ 0 := by omega
    have hrc : ¬(hexTest recipientId = true) := by rw [hr]; exact Bool.false_ne_true
    constructor
    · unfold sendPayment; rw [if_neg hn, if_pos hrc]
    · unfold createP2IDProof; rw [if_neg hn, if_pos hrc]
  · intro h hr hf
    have hn : ¬amount ≤ 0 := by omega
    have hrc : ¬¬(hexTest recipientId = true) := not_not_intro hr
    have hfc : ¬(hexTest faucetId = true) := by rw [hf]; exact Bool.false_ne_true
    constructor
    · unfold sendPayment; rw [if_neg hn, if_neg hrc, if_pos hfc]
    · unfold createP2IDProof; rw [if_neg hn, if_neg hrc, if_pos hfc]

/-- C10 counterexample: `amount = 0` together with a non-hex
`recipientId` throws the amount error, not the "Invalid hex format"
error the claim promises for every malformed id. -/
theorem sendPayment_amount_priority_counterexample :
    sendPayment (fun _ => true) (Except.ok "tx") "0xagent" "!!" "@@" 0 "public" =
      ([], Except.error "Amount must be positive") ∧
    hexTest "!!" = false ∧
    "Amount must be positive" ≠ "Invalid hex format for recipientId" :=
  ⟨rfl, rfl, by decide⟩

/-- C10 witness: the amended theorem at concrete calls — a negative
amount, a malformed recipient, and a malformed faucet. -/
theorem wallet_validation_witness :
    sendPayment (fun _ => true) (Except.ok "tx") "0xagent" "0xabc123" "0xdef456"
        (-5) "public" = ([], Except.error "Amount must be positive") ∧
    createP2IDProof (fun _ => true) (Except.ok ()) (Except.ok ⟨"aa", "tx"⟩) "0xagent"
        "nothex!" "0xfaucet" 5 "public" =
      ([], Except.error "Invalid hex format for recipientId") ∧
    sendPayment (fun _ => true) (Except.ok "tx") "0xagent" "0xabc123" "0xZZ"
        5 "public" = ([], Except.error "Invalid hex format for faucetId") := by
  refine ⟨?_, ?_, ?_⟩
  · exact ((wallet_validation (fun _ => true) (Except.ok "tx") (Except.ok ())
      (Except.ok ⟨"aa", "tx"⟩) "0xagent" "0xabc123" "0xdef456" (-5) "public").1
      (by omega)).1
  · exact ((wallet_validation (fun _ => true) (Except.ok "tx") (Except.ok ())
      (Except.ok ⟨"aa", "tx"⟩) "0xagent" "nothex!" "0xfaucet" 5 "public").2.1
      (by omega) (by decide)).2
  · exact ((wallet_validation (fun _ => true) (Except.ok "tx") (Except.ok ())
      (Except.ok ⟨"aa", "tx"⟩) "0xagent" "0xabc123" "0xZZ" 5 "public").2.2
      (by omega) (by decide) (by decide)).1

end X402
